import Mathlib

/-!
Text-Based Clash Royale: the match engine of `server/server.go`

A shallow embedding of the server's match engine and the properties of its
combat resolver, tick function, progression engine, deploy command and
matchmaking step.

Conventions of the embedding.

* Go `int` is 64 bits wide. A value of type `int` is an `Int`, and every addition,
  subtraction and multiplication of the source is followed by `wrap`, the reduction
  to the two's complement range from `minInt` to `maxInt`.
* `int(float64(x) * 1.2)` and `int(float64(x) * 1.1)` are computed as the machine
  does (`float64Scale`): `x` is rounded to binary64, the product with the binary64
  constant is rounded to binary64, and the conversion discards the fraction.
  `float64Scale_eq_tdiv` proves that below `2^48` in magnitude the result is the exact
  product truncated toward zero.
* Clock readings are integers (nanoseconds); `rand.Intn(100)` and the clock are
  inputs of the functions that consult them. `time.Since` saturates at the ends of
  the 64-bit range (`saturate`); the test `time.Since(game.StartTime) >= gameDuration`
  has the same outcome on the saturated and on the exact difference, and is written
  on the exact difference.
* A `*Player` is an index into the list of player records of the `World`, and `nil`
  is `none`: the two slots of a match may point to one and the same record. An
  index outside the list, which no Go pointer is, reads as a panic.
* A slice (`Player.Towers`, `Player.Troops`) is a reference to a backing array
  held in a `Store`; two players whose slices are the same reference share
  their towers, as the players created by `handleAuthentication` from
  `towersData` and `troopsData` do.
* A run-time panic (nil dereference, index out of range) is the result `none`.
* Writes to connections, to standard output, to the log and to the player
  files are recorded, in order, as `Event`s.
-/

namespace ClashRoyale

/-! ## Data model -/

/-- The `Tower` struct; `Type_` is the Go field `Type`. -/
structure Tower where
  Type_ : String
  HP : Int
  ATK : Int
  DEF : Int
  CRIT : Int
  EXP : Int
deriving DecidableEq, Repr

/-- The `Troop` struct. -/
structure Troop where
  Name : String
  HP : Int
  ATK : Int
  DEF : Int
  MANA : Int
  EXP : Int
  Special : String
deriving DecidableEq, Repr

/-- The `Player` struct. `Towers` and `Troops` are slices: references to backing
arrays of the `Store`. `Conn` identifies the player's connection. -/
structure Player where
  Username : String
  Password : String
  EXP : Int
  Level : Int
  Towers : Nat
  Troops : Nat
  Conn : Nat
  Mana : Int
deriving DecidableEq, Repr

/-- The `GameState` struct. `Player1` and `Player2` are pointers to player records
(`none` is `nil`); `StartTime` is in nanoseconds. -/
structure GameState where
  Player1 : Option Nat
  Player2 : Option Nat
  StartTime : Int
  gameOver : Bool
deriving DecidableEq, Repr

/-- The constant `gameDuration = 3 * time.Minute`, in nanoseconds. -/
def gameDuration : Int := 3 * 60 * 1000000000

/-! ## Machine arithmetic -/

/-- The least value of Go's 64-bit `int`. -/
def minInt : Int := -9223372036854775808

/-- The greatest value of Go's 64-bit `int`. -/
def maxInt : Int := 9223372036854775807

/-- The result of an `int` operation whose mathematical value is `x`: `x` reduced to
the two's complement range of 64 bits. -/
def wrap (x : Int) : Int :=
  (x + 9223372036854775808) % 18446744073709551616 - 9223372036854775808

/-- The result of `time.Time.Sub` (and so of `time.Since`) when the difference of the
two clock readings is `x`: a `Duration` is an `int64`, and a difference outside its
range is replaced by the nearest end of the range. -/
def saturate (x : Int) : Int :=
  if x < minInt then minInt else if x > maxInt then maxInt else x

/-- The number of binary digits of `n`, for `n` below `2^fuel`. -/
def bitLength : Nat → Nat → Nat
  | 0, _ => 0
  | fuel + 1, n => if n = 0 then 0 else bitLength fuel (n / 2) + 1

/-- The quotient `n / 2^s` rounded to the nearest integer, ties to even. -/
def roundShift (n s : Nat) : Nat :=
  let q := n / 2 ^ s
  let r := n % 2 ^ s
  if 2 * r > 2 ^ s ∨ (2 * r = 2 ^ s ∧ q % 2 = 1) then q + 1 else q

/-- The binary64 rounding of a natural number below `2^128` (53-bit significand,
round to nearest, ties to even): the pair `(m, s)` stands for `m * 2^s`. -/
def round53 (n : Nat) : Nat × Nat :=
  let s := bitLength 128 n - 53
  (roundShift n s, s)

/-- The significand of the binary64 constant `1.2` (`0x3FF3333333333333`): the
constant is `mant12 / 2^52`. -/
def mant12 : Nat := 5404319552844595

/-- The significand of the binary64 constant `1.1` (`0x3FF199999999999A`): the
constant is `mant11 / 2^52`. -/
def mant11 : Nat := 4953959590107546

/-- The Go expression `int(float64(x) * c)` for an `int` `x` and the binary64
constant `c = mant / 2^52`: `x` is rounded to binary64, the product is rounded to
binary64, and the conversion to `int` discards the fraction. Where the product is
outside the range of `int` the language leaves the result to the implementation;
the value here is the one of the amd64 conversion instruction, `minInt`. -/
def float64Scale (x : Int) (mant : Nat) : Int :=
  let f := round53 x.natAbs
  let p := round53 (f.1 * mant)
  let v : Nat := p.1 * 2 ^ (p.2 + f.2) / 2 ^ 52
  let r : Int := if x < 0 then -(v : Int) else (v : Int)
  if minInt ≤ r ∧ r ≤ maxInt then r else minInt

/-! ## Combat resolver -/

/-- The dynamic type of an `interface{}` argument of `calculateDamage`: a tower or
a troop (by value or by pointer, which the type switch treats alike), or anything
else. -/
inductive Combatant where
  | tower (t : Tower)
  | troop (t : Troop)
  | other
deriving DecidableEq, Repr

/-- The first type switch of `calculateDamage`: the attacker's `ATK`. -/
def attackOf : Combatant → Option Int
  | .tower t => some t.ATK
  | .troop t => some t.ATK
  | .other => none

/-- The second type switch of `calculateDamage`: the defender's `DEF`. -/
def defenseOf : Combatant → Option Int
  | .tower t => some t.DEF
  | .troop t => some t.DEF
  | .other => none

/-- The function `calculateDamage`. `randNum` is the value `rand.Intn(100)` returns
if it is called, which it is only when `critChance > 0`. -/
def calculateDamage (attacker defender : Combatant) (critChance : Int) (randNum : Int) : Int :=
  match attackOf attacker with
  | none => 0
  | some attack =>
    match defenseOf defender with
    | none => 0
    | some defense =>
      let damage := wrap (attack - defense)
      if damage < 0 then 0
      else if critChance > 0 then
        if randNum < critChance then
          let damage := wrap (float64Scale attack mant12 - defense)
          if damage < 0 then 0 else damage
        else damage
      else damage

/-! ## Backing arrays and recorded output -/

/-- The backing arrays of the players' `Towers` and `Troops` slices. A reference
outside the store is a `nil` slice. -/
structure Store where
  towers : List (List Tower)
  troops : List (List Troop)
deriving DecidableEq, Repr

/-- The towers a `Towers` slice refers to. -/
def Store.towersOf (s : Store) (ref : Nat) : List Tower := s.towers.getD ref []

/-- The troops a `Troops` slice refers to. -/
def Store.troopsOf (s : Store) (ref : Nat) : List Troop := s.troops.getD ref []

/-- The assignment `slice[i] = t` on a `Towers` slice. -/
def Store.setTower (s : Store) (ref i : Nat) (t : Tower) : Store :=
  { s with towers := s.towers.set ref ((s.towersOf ref).set i t) }

/-- One player's part of the map `sendGameState` marshals; `towers` holds
`Tower{Type: tower.Type, HP: tower.HP}` for each tower. -/
structure PlayerView where
  username : String
  level : Int
  towers : List Tower
  mana : Int
deriving DecidableEq, Repr

/-- The map `gameStateData` of `sendGameState`. -/
structure Snapshot where
  player1 : PlayerView
  player2 : PlayerView
  gameOver : Bool
  timeRemaining : Int
deriving DecidableEq, Repr

/-- What the server writes: a line on a connection, a line on standard output or
in the log, or a player file. -/
inductive Event where
  /-- The line `Game Over! Winner: <winner>` on a connection. -/
  | gameOverMessage (conn : Nat) (winner : String)
  /-- The marshalled snapshot on a connection. -/
  | gameStateMessage (conn : Nat) (snapshot : Snapshot)
  /-- The call `savePlayerData(player)`, with the loadout it serialises. -/
  | playerSaved (player : Player) (towers : List Tower) (troops : List Troop)
  /-- The line `Player <username> leveled up to level <level>!` on standard output. -/
  | leveledUp (username : String) (level : Int)
  /-- The log line `Received from <username> : <message>`. -/
  | received (username : String) (message : String)
  /-- The line `Deploying troop <troopName> for player <username>` on standard output. -/
  | deploying (troopName : String) (username : String)
  /-- The line `Not enough mana to deploy <troopName>` on a connection. -/
  | notEnoughMana (conn : Nat) (troopName : String)
  /-- The line `Troop <troopName> not found` on a connection. -/
  | troopNotFound (conn : Nat) (troopName : String)
  /-- The line `Game started` on a connection. -/
  | gameStarted (conn : Nat)
  /-- The line `Game started with  <username>` on a connection. -/
  | gameStartedWith (conn : Nat) (username : String)
  /-- The line `Waiting for another player...` on a connection. -/
  | waitingForPlayer (conn : Nat)
deriving DecidableEq, Repr

/-- The function `min` at the end of `server.go`. -/
protected def min (a b : Int) : Int := if a < b then a else b

/-! ## Progression engine -/

/-- The function `awardEXP`, on the record its argument points to. -/
def awardEXP (player : Player) (exp : Int) : Player :=
  { player with EXP := wrap (player.EXP + exp) }

/-- The body of the first loop of `levelUp`, on one tower. -/
def levelUpTower (t : Tower) : Tower :=
  { t with HP := float64Scale t.HP mant11, ATK := float64Scale t.ATK mant11,
           DEF := float64Scale t.DEF mant11 }

/-- The body of the second loop of `levelUp`, on one troop. -/
def levelUpTroop (t : Troop) : Troop :=
  { t with HP := float64Scale t.HP mant11, ATK := float64Scale t.ATK mant11,
           DEF := float64Scale t.DEF mant11 }

/-- The function `levelUp`, on the record its argument points to: the store and the
record after the call, and the line it prints. -/
def levelUp (s : Store) (player : Player) : Store × Player × List Event :=
  let levelThreshold := wrap (100 + wrap (player.Level * 10))
  if player.EXP ≥ levelThreshold then
    let player := { player with Level := wrap (player.Level + 1) }
    let s := { s with towers := s.towers.set player.Towers ((s.towersOf player.Towers).map levelUpTower) }
    let s := { s with troops := s.troops.set player.Troops ((s.troopsOf player.Troops).map levelUpTroop) }
    (s, player, [Event.leveledUp player.Username player.Level])
  else (s, player, [])

/-- The function `savePlayerData`, as the write it performs. -/
def savePlayerData (s : Store) (player : Player) : Event :=
  Event.playerSaved player (s.towersOf player.Towers) (s.troopsOf player.Troops)

/-- The function `awardWinEXP`, on the record `winner` points to. -/
def awardWinEXP (s : Store) (winner : Player) : Store × Player × List Event :=
  let winner := { winner with EXP := wrap (winner.EXP + 30) }
  let r := levelUp s winner
  (r.1, r.2.1, r.2.2 ++ [savePlayerData r.1 r.2.1])

/-- The record a `*Player` points to; `none` for `nil`. -/
def deref (players : List Player) (p : Option Nat) : Option Player :=
  p.bind fun i => players[i]?

/-- The function `awardDrawEXP`: the player records and the store after the call and
what it writes; `none` when a slot of the match is `nil`. Each record is read when
the source reads it, so that a match whose slots point to one record gives that
record both awards. -/
def awardDrawEXP (players : List Player) (s : Store) (game : GameState) :
    Option (List Player × Store × List Event) := do
  let p1 ← game.Player1
  let player1 ← players[p1]?
  let r1 := levelUp s { player1 with EXP := wrap (player1.EXP + 10) }
  let players := players.set p1 r1.2.1
  let out1 := r1.2.2 ++ [savePlayerData r1.1 r1.2.1]
  let p2 ← game.Player2
  let player2 ← players[p2]?
  let r2 := levelUp r1.1 { player2 with EXP := wrap (player2.EXP + 10) }
  let players := players.set p2 r2.2.1
  let out2 := r2.2.2 ++ [savePlayerData r2.1 r2.2.1]
  some (players, r2.1, out1 ++ out2)

/-- The function `determineWinner`; `none` when a slot of the match is `nil`. -/
def determineWinner (players : List Player) (s : Store) (game : GameState) : Option String :=
  if !game.gameOver then some ""
  else do
    let player1 ← deref players game.Player1
    let p1TowersDestroyed : Int := wrap (3 - ((s.towersOf player1.Towers).length : Int))
    let player2 ← deref players game.Player2
    let p2TowersDestroyed : Int := wrap (3 - ((s.towersOf player2.Towers).length : Int))
    if p1TowersDestroyed > p2TowersDestroyed then some player1.Username
    else if p2TowersDestroyed > p1TowersDestroyed then some player2.Username
    else some "draw"

/-! ## The tick -/

/-- What `updateGameState` reads and writes: the player records, the backing arrays,
the match, and the output written so far. -/
structure World where
  players : List Player
  store : Store
  game : GameState
  out : List Event
deriving DecidableEq, Repr

/-- The inputs of one tick that are not part of the state: the clock when the tick
checks the match duration, the two values of `rand.Intn(100)` (each drawn only when
the crit chance passed to `calculateDamage` is positive), and the clock when
`sendGameState` computes the remaining time. -/
structure TickInput where
  now : Int
  randNum1 : Int
  randNum2 : Int
  sendTime : Int
deriving DecidableEq, Repr

/-- The function `sendGameOverMessage`, for a match with both slots filled;
`player1` and `player2` are the records the slots point to. -/
def sendGameOverMessage (player1 player2 : Player) (winner : String) : List Event :=
  [Event.gameOverMessage player1.Conn winner, Event.gameOverMessage player2.Conn winner]

/-- The slice `p1Towers` (and `p2Towers`) that `sendGameState` builds. -/
def towerViews (towers : List Tower) : List Tower :=
  towers.map fun tower => { Type_ := tower.Type_, HP := tower.HP, ATK := 0, DEF := 0, CRIT := 0, EXP := 0 }

/-- The function `sendGameState`, for a match with both slots filled; `player1` and
`player2` are the records the slots point to and `sendTime` is the clock it reads. -/
def sendGameState (s : Store) (player1 player2 : Player) (startTime : Int) (gameOver : Bool)
    (sendTime : Int) : List Event :=
  let gameStateData : Snapshot :=
    { player1 :=
        { username := player1.Username, level := player1.Level,
          towers := towerViews (s.towersOf player1.Towers), mana := player1.Mana }
      player2 :=
        { username := player2.Username, level := player2.Level,
          towers := towerViews (s.towersOf player2.Towers), mana := player2.Mana }
      gameOver := gameOver
      timeRemaining := wrap (gameDuration - saturate (sendTime - startTime)) }
  [Event.gameStateMessage player1.Conn gameStateData, Event.gameStateMessage player2.Conn gameStateData]

/-- The mana regeneration of `updateGameState` (`player.Mana = min(player.Mana+1, 10)`),
on the record `player` points to. -/
def regenerateMana (player : Player) : Player :=
  { player with Mana := ClashRoyale.min (wrap (player.Mana + 1)) 10 }

/-- The four statements of `updateGameState` that compute and apply the two damages
(`damageToP1Tower`, `damageToP2Tower`). `towers1`, `troops1`, `towers2`, `troops2` are
the slices of the two players. Every operand is read from the store when the source
reads it, so that shared backing arrays behave as in the source. -/
def damageFirstTowers (s : Store) (towers1 troops1 towers2 troops2 : Nat) (inp : TickInput) :
    Option Store := do
  let troop2 ← (s.troopsOf troops2)[0]?
  let tower1 ← (s.towersOf towers1)[0]?
  let tower2 ← (s.towersOf towers2)[0]?
  let damageToP1Tower := calculateDamage (.troop troop2) (.tower tower1) tower2.CRIT inp.randNum1
  let s := s.setTower towers1 0 { tower1 with HP := wrap (tower1.HP - damageToP1Tower) }
  let troop1 ← (s.troopsOf troops1)[0]?
  let tower2 ← (s.towersOf towers2)[0]?
  let tower1 ← (s.towersOf towers1)[0]?
  let damageToP2Tower := calculateDamage (.troop troop1) (.tower tower2) tower1.CRIT inp.randNum2
  some (s.setTower towers2 0 { tower2 with HP := wrap (tower2.HP - damageToP2Tower) })

/-- The statement `if owner.Towers[0].HP <= 0 { owner.Towers[0].HP = 0;
awardEXP(attacker, owner.Towers[0].EXP) }` of `updateGameState`: `towers` is the
`Towers` slice of the owner and `attacker` points to the other player. -/
def clampDestroyed (players : List Player) (s : Store) (towers : Nat) (attacker : Nat) :
    Option (List Player × Store) := do
  let tower ← (s.towersOf towers)[0]?
  if tower.HP ≤ 0 then do
    let s := s.setTower towers 0 { tower with HP := 0 }
    let record ← players[attacker]?
    some (players.set attacker (awardEXP record tower.EXP), s)
  else some (players, s)

/-- The block of `updateGameState` guarded by `len(player1.Towers) > 0 &&
len(player2.Towers) > 0`: the first troop of each player damages the first tower of
the other, and a tower brought to 0 pays its EXP to the other player. `p1` and `p2`
are the pointers `player1` and `player2`. -/
def resolveCombat (players : List Player) (s : Store) (p1 p2 : Nat) (inp : TickInput) :
    Option (List Player × Store) := do
  let player1 ← players[p1]?
  let player2 ← players[p2]?
  if (s.towersOf player1.Towers).length > 0 ∧ (s.towersOf player2.Towers).length > 0 then do
    let s ← damageFirstTowers s player1.Towers player1.Troops player2.Towers player2.Troops inp
    let (players, s) ← clampDestroyed players s player1.Towers p2
    clampDestroyed players s player2.Towers p1
  else some (players, s)

/-- The function `updateGameState`: one tick. `none` is a run-time panic. The slices
`Towers` and `Troops` of a player are assigned nowhere in the tick, so they are read
once; every other field of a player record is read from the list of records when the
source reads it through the pointer. -/
def updateGameState (w : World) (inp : TickInput) : Option World :=
  if w.game.gameOver then some w
  else if inp.now - w.game.StartTime ≥ gameDuration then do
    let game := { w.game with gameOver := true }
    let _ ← determineWinner w.players w.store game
    some { w with game := game }
  else do
    let p1 ← w.game.Player1
    let player1 ← w.players[p1]?
    let players := w.players.set p1 (regenerateMana player1)
    let p2 ← w.game.Player2
    let player2 ← players[p2]?
    let players := players.set p2 (regenerateMana player2)
    let (players, s) ← resolveCombat players w.store p1 p2 inp
    let player1 ← players[p1]?
    let player2 ← players[p2]?
    let tower1 ← (s.towersOf player1.Towers)[0]?
    if tower1.HP ≤ 0 then
      let r := awardWinEXP s player2
      some { players := players.set p2 r.2.1
             store := r.1
             game := { w.game with gameOver := true }
             out := w.out ++ sendGameOverMessage player1 player2 player2.Username ++ r.2.2 }
    else do
      let tower2 ← (s.towersOf player2.Towers)[0]?
      if tower2.HP ≤ 0 then
        let r := awardWinEXP s player1
        some { players := players.set p1 r.2.1
               store := r.1
               game := { w.game with gameOver := true }
               out := w.out ++ sendGameOverMessage player1 player2 player1.Username ++ r.2.2 }
      else
        some { players := players
               store := s
               game := w.game
               out := w.out ++ sendGameState s player1 player2 w.game.StartTime false inp.sendTime }

/-- A run of ticks, one per input, stopping at the first panic. -/
def runTicks (w : World) : List TickInput → Option World
  | [] => some w
  | inp :: rest => (updateGameState w inp).bind fun w1 => runTicks w1 rest

/-! ## The deploy command -/

/-- The library function `strings.Split(s, " ")` on the characters of `s`: the
pieces between the spaces, so that `n` spaces give `n + 1` pieces. -/
def splitSpace : List Char → List (List Char)
  | [] => [[]]
  | c :: cs =>
    if c = ' ' then [] :: splitSpace cs
    else
      match splitSpace cs with
      | [] => [[c]]
      | piece :: pieces => (c :: piece) :: pieces

/-- The loop of `handleConnection` that looks a troop up by name: the first troop of
the loadout whose `Name` is `troopName`. -/
def findTroop (troops : List Troop) (troopName : String) : Option Troop :=
  troops.find? fun t => t.Name == troopName

/-- One round of the command loop of `handleConnection`, from the trimmed `message`
on, on the record `player` points to: the record after the command and what is
written. `conn` is the connection the message came from. -/
def handleCommand (s : Store) (player : Player) (conn : Nat) (message : String) :
    Player × List Event :=
  let logged := Event.received player.Username message
  match (splitSpace message.data).map String.mk with
  | command :: troopName :: _ =>
    if command = "deploy" then
      match findTroop (s.troopsOf player.Troops) troopName with
      | some troopToDeploy =>
        if player.Mana ≥ troopToDeploy.MANA then
          ({ player with Mana := wrap (player.Mana - troopToDeploy.MANA) },
            [logged, Event.deploying troopName player.Username])
        else (player, [logged, Event.notEnoughMana conn troopName])
      | none => (player, [logged, Event.troopNotFound conn troopName])
    else (player, [logged])
  | _ => (player, [logged])

/-! ## Matchmaking -/

/-- The map `activeGames`, as its entries in the order a `range` loop visits them. -/
abbrev ActiveGames := List (String × GameState)

/-- The assignment `activeGames[gameID] = game`. -/
def setGame : ActiveGames → String → GameState → ActiveGames
  | [], gameID, game => [(gameID, game)]
  | (k, g) :: rest, gameID, game =>
    if k = gameID then (k, game) :: rest else (k, g) :: setGame rest gameID game

/-- The function `initializeGame`; `now` is the value of `time.Now()`. The game ID
reads `player1.Username` and `player2.Username`, so a `nil` player is a panic. -/
def initializeGame (players : List Player) (activeGames : ActiveGames)
    (player1 player2 : Option Nat) (now : Int) : Option (ActiveGames × GameState) := do
  let record1 ← deref players player1
  let record2 ← deref players player2
  let gameID := record1.Username ++ "-" ++ record2.Username
  let game : GameState := { Player1 := player1, Player2 := player2, StartTime := now, gameOver := false }
  some (setGame activeGames gameID game, game)

/-- How the matchmaking step of `handleConnection` ends. -/
inductive MatchOutcome where
  /-- The first loop filled a waiting match and `handleConnection` returned. -/
  | joinedAndReturned (game : GameState)
  /-- A new match was created and `handleConnection` goes on to the game loop. -/
  | created (game : GameState)
  /-- The second loop filled a waiting match and `handleConnection` goes on to the
  game loop. -/
  | joined (game : GameState)
  /-- A new match was created and `handleConnection` returned. -/
  | createdAndReturned (game : GameState)
deriving DecidableEq, Repr

/-- The first `range` loop of the matchmaking step: the first match whose second
slot is `nil` gets `player` and a new start time, and both connections are told. -/
def joinWaiting (players : List Player) :
    ActiveGames → Nat → Int → Option (Option (ActiveGames × GameState × List Event))
  | [], _, _ => some none
  | (k, game) :: rest, player, now =>
    match game.Player2 with
    | none =>
      let game := { game with Player2 := some player, StartTime := now }
      match deref players game.Player1, deref players game.Player2 with
      | some record1, some record2 =>
        some (some ((k, game) :: rest, game,
          [Event.gameStarted record1.Conn, Event.gameStarted record2.Conn]))
      | _, _ => none
    | some _ =>
      (joinWaiting players rest player now).map fun r =>
        r.map fun r => ((k, game) :: r.1, r.2.1, r.2.2)

/-- The second `range` loop of the matchmaking step: the first match whose second
slot is `nil` gets `player`. -/
def connectWaiting : ActiveGames → Nat → Option (ActiveGames × GameState)
  | [], _ => none
  | (k, game) :: rest, player =>
    match game.Player2 with
    | none =>
      let game := { game with Player2 := some player }
      some ((k, game) :: rest, game)
    | some _ => (connectWaiting rest player).map fun r => ((k, game) :: r.1, r.2)

/-- The matchmaking step of `handleConnection` (from `//For simplicity, auto match`
to the start of the game loop) for the authenticated player that `player` points to,
on connection `conn`. `none` is a run-time panic. -/
def autoMatch (players : List Player) (activeGames : ActiveGames) (player : Nat) (conn : Nat)
    (now : Int) : Option (ActiveGames × MatchOutcome × List Event) :=
  match joinWaiting players activeGames player now with
  | none => none
  | some (some (games, game, out)) => some (games, MatchOutcome.joinedAndReturned game, out)
  | some none =>
    if activeGames.length = 0 then
      (initializeGame players activeGames (some player) none now).map fun r =>
        (r.1, MatchOutcome.created r.2, [Event.waitingForPlayer conn])
    else
      match connectWaiting activeGames player with
      | some (games, game) =>
        match deref players game.Player1, players[player]? with
        | some record1, some record =>
          some (games, MatchOutcome.joined game,
            [Event.gameStartedWith record1.Conn record.Username,
              Event.gameStartedWith record.Conn record.Username])
        | _, _ => none
      | none =>
        (initializeGame players activeGames (some player) none now).map fun r =>
          (r.1, MatchOutcome.createdAndReturned r.2, [Event.waitingForPlayer conn])

/-! ## Runs of ticks and derived notions used in the statements -/

/-- The states a run of ticks visits after its start, up to the first panic. -/
def tickTrace (w : World) : List TickInput → List World
  | [] => []
  | inp :: rest =>
    match updateGameState w inp with
    | none => []
    | some w1 => w1 :: tickTrace w1 rest

/-- The number of steps of a sequence of states, started at `w`, at which `gameOver`
changes from `false` to `true`. -/
def overTransitions (w : World) : List World → Nat
  | [] => 0
  | w1 :: rest =>
    (if w.game.gameOver = false ∧ w1.game.gameOver = true then 1 else 0) + overTransitions w1 rest

/-- The record the first slot of the match points to. -/
def slot1 (w : World) : Option Player := deref w.players w.game.Player1

/-- The record the second slot of the match points to. -/
def slot2 (w : World) : Option Player := deref w.players w.game.Player2

/-- The king tower of a player: element 0 of the `Towers` slice. -/
def kingTower (s : Store) (player : Player) : Option Tower := (s.towersOf player.Towers)[0]?

/-- A king tower after `damage` is subtracted from its hit points and a result that
is not positive is set to 0, as the combat block of `updateGameState` does. -/
def hitTower (king : Tower) (damage : Int) : Tower :=
  { king with HP := if wrap (king.HP - damage) ≤ 0 then 0 else wrap (king.HP - damage) }

/-- The store after the combat block when the two king towers `k1` (in the array
`a`) and `k2` (in the array `b`) take the damages `d1` and `d2`. -/
def combatStore (s : Store) (a b : Nat) (k1 k2 : Tower) (d1 d2 : Int) : Store :=
  let s := (s.setTower a 0 { k1 with HP := wrap (k1.HP - d1) }).setTower b 0
    { k2 with HP := wrap (k2.HP - d2) }
  let s := if wrap (k1.HP - d1) ≤ 0 then s.setTower a 0 { k1 with HP := 0 } else s
  if wrap (k2.HP - d2) ≤ 0 then s.setTower b 0 { k2 with HP := 0 } else s

/-- The hit points the specification gives a king tower after one round against a
troop without a critical hit: `max(0, oldHP - max(0, ATK - DEF))`. -/
def specKingHP (oldHP atk defense : Int) : Int := max 0 (oldHP - max 0 (atk - defense))

/-- Both slots of the match point to player records and each of the two players has
at least one tower and one troop. -/
def playable (w : World) : Bool :=
  match slot1 w, slot2 w with
  | some p1, some p2 =>
    !(w.store.towersOf p1.Towers).isEmpty && !(w.store.towersOf p2.Towers).isEmpty &&
      !(w.store.troopsOf p1.Troops).isEmpty && !(w.store.troopsOf p2.Troops).isEmpty
  | _, _ => false

/-- No player of the match has more than 10 mana. -/
def manaAtMostTen (w : World) : Bool :=
  ((slot1 w).all fun p => decide (p.Mana ≤ 10)) && ((slot2 w).all fun p => decide (p.Mana ≤ 10))

/-- The king tower hit points of the first player of a tick's result. -/
def kingHP1 (r : Option World) : Option Int :=
  r.bind fun w => (slot1 w).bind fun p => (kingTower w.store p).map fun k => k.HP

/-- The king tower hit points of the second player of a tick's result. -/
def kingHP2 (r : Option World) : Option Int :=
  r.bind fun w => (slot2 w).bind fun p => (kingTower w.store p).map fun k => k.HP

/-- A player record with its EXP and level erased: what `awardEXP`, `awardWinEXP`
and `levelUp` leave as it is. -/
def eraseProgress (p : Player) : Player := { p with EXP := 0, Level := 0 }

/-- A number of magnitude below `2^48`: arithmetic on a few such numbers neither
wraps around nor rounds in binary64. -/
def small (x : Int) : Prop := x.natAbs < 2 ^ 48

instance (x : Int) : Decidable (small x) := by unfold small; infer_instance

/-! ## Sample data -/

/-- A troop with the given name, attack and mana cost. -/
def sampleTroop (name : String) (atk mana : Int) : Troop :=
  { Name := name, HP := 50, ATK := atk, DEF := 0, MANA := mana, EXP := 5, Special := "" }

/-- A tower with the given hit points, defense and EXP reward, and crit chance 0. -/
def sampleKing (hp defense exp : Int) : Tower :=
  { Type_ := "King Tower", HP := hp, ATK := 0, DEF := defense, CRIT := 0, EXP := exp }

/-- A store with one backing array of three towers and one of a single troop for
each of two players; the first tower of the first array has `hp1` hit points. -/
def sampleStore (hp1 : Int) : Store :=
  { towers := [[sampleKing hp1 10 50, sampleKing 60 5 20, sampleKing 60 5 20],
               [sampleKing 100 10 50, sampleKing 60 5 20, sampleKing 60 5 20]]
    troops := [[sampleTroop "Pawn" 30 3], [sampleTroop "Pawn" 30 3]] }

/-- A player record of level 1 with the loadout `loadout` of the sample store. -/
def samplePlayer (username : String) (loadout conn : Nat) (exp mana : Int) : Player :=
  { Username := username, Password := "secret", EXP := exp, Level := 1,
    Towers := loadout, Troops := loadout, Conn := conn, Mana := mana }

/-- The player `alice` as `handleAuthentication` creates her: EXP 0, mana 5. -/
def alice : Player := samplePlayer "alice" 0 1 0 5

/-- The player `bob` as `handleAuthentication` creates him: EXP 0, mana 5. -/
def bob : Player := samplePlayer "bob" 1 2 0 5

/-- A running match, started at time 0, of the records `first` and `second`, in
this order in the list of player records; the first king tower has `hp1` hit
points. -/
def matchOf (first second : Player) (hp1 : Int) : World :=
  { players := [first, second]
    store := sampleStore hp1
    game := { Player1 := some 0, Player2 := some 1, StartTime := 0, gameOver := false }
    out := [] }

/-- A running match of `alice` and `bob` that started at time 0: both king towers
have 100 hit points and defense 10, both first troops have attack 30. -/
def sampleWorld : World := matchOf alice bob 100

/-- A running match in which `alice`'s king tower has 10 hit points left and `bob`
has 40 EXP. -/
def finishingWorld : World := matchOf alice (samplePlayer "bob" 1 2 40 5) 10

/-- A running match both slots of which point to the one record of `alice`. -/
def selfMatch : World :=
  { players := [alice]
    store := sampleStore 100
    game := { Player1 := some 0, Player2 := some 0, StartTime := 0, gameOver := false }
    out := [] }

/-- A tick one second into the match. -/
def sampleTick : TickInput := { now := 1000000000, randNum1 := 0, randNum2 := 0, sendTime := 1000000000 }

/-- A tick at the moment the match duration has elapsed. -/
def finalTick : TickInput := { now := gameDuration, randNum1 := 0, randNum2 := 0, sendTime := gameDuration }

set_option maxRecDepth 8192

/-! ## Machine arithmetic: properties -/

/-- An operation whose mathematical value is in the 64-bit range gives that value. -/
theorem wrap_of_inRange (x : Int) (h1 : minInt ≤ x) (h2 : x ≤ maxInt) : wrap x = x := by
  unfold wrap
  unfold minInt at h1
  unfold maxInt at h2
  omega

/-- Every result is in the 64-bit range. -/
theorem wrap_inRange (x : Int) : minInt ≤ wrap x ∧ wrap x ≤ maxInt := by
  unfold wrap minInt maxInt
  omega

/-- A sum of a result and a number wraps like the sum of the values. -/
theorem wrap_add_wrap (a b : Int) : wrap (wrap a + b) = wrap (a + b) := by
  unfold wrap
  omega

/-- The number of binary digits. -/
theorem bitLength_spec (fuel n : Nat) (h : n < 2 ^ fuel) :
    n < 2 ^ bitLength fuel n ∧ (n ≠ 0 → 2 ^ (bitLength fuel n - 1) ≤ n) := by
  induction fuel generalizing n with
  | zero =>
    have : n = 0 := by simpa using h
    subst this
    simp [bitLength]
  | succ fuel ih =>
    by_cases hn : n = 0
    · subst hn; simp [bitLength]
    · have hhalf : n / 2 < 2 ^ fuel := by
        rw [Nat.pow_succ] at h
        omega
      obtain ⟨h1, h2⟩ := ih (n / 2) hhalf
      simp only [bitLength, hn, if_false]
      constructor
      · rw [Nat.pow_succ]
        omega
      · intro _
        simp only [Nat.add_sub_cancel]
        by_cases hz : n / 2 = 0
        · have : bitLength fuel (n / 2) = 0 := by
            rw [hz]; cases fuel <;> simp [bitLength]
          rw [this]
          simp
          omega
        · have h3 := h2 hz
          have e : bitLength fuel (n / 2) = (bitLength fuel (n / 2) - 1) + 1 := by
            have : bitLength fuel (n / 2) ≠ 0 := by
              intro e0
              rw [e0] at h1
              simp at h1
              exact hz h1
            omega
          rw [e, Nat.pow_succ]
          omega

/-- What `roundShift` returns: the quotient or its successor, by the remainder. -/
theorem roundShift_spec (n s : Nat) :
    ∃ q r, n = q * 2 ^ s + r ∧ r < 2 ^ s ∧
      (roundShift n s = q ∨ roundShift n s = q + 1) ∧
      (2 * r > 2 ^ s → roundShift n s = q + 1) ∧ (2 * r < 2 ^ s → roundShift n s = q) := by
  refine ⟨n / 2 ^ s, n % 2 ^ s, ?_, Nat.mod_lt _ (by positivity), ?_, ?_, ?_⟩
  · have := Nat.div_add_mod n (2 ^ s)
    rw [Nat.mul_comm] at this
    exact this.symm
  · unfold roundShift
    simp only
    split_ifs
    · exact Or.inr rfl
    · exact Or.inl rfl
  · intro h
    unfold roundShift
    simp only
    rw [if_pos (Or.inl h)]
  · intro h
    unfold roundShift
    simp only
    rw [if_neg]
    intro hc
    rcases hc with hc | hc <;> omega

/-- A natural number below `2^53` is a binary64 number. -/
theorem round53_small (n : Nat) (h : n < 2 ^ 53) : round53 n = (n, 0) := by
  have hs : bitLength 128 n - 53 = 0 := by
    by_cases h0 : n = 0
    · subst h0; simp [bitLength]
    · obtain ⟨-, h2⟩ := bitLength_spec 128 n (lt_trans h (by norm_num))
      have h3 := h2 h0
      have : 2 ^ (bitLength 128 n - 1) < 2 ^ 53 := lt_of_le_of_lt h3 h
      have := (Nat.pow_lt_pow_iff_right (by decide : 1 < 2)).1 this
      omega
  unfold round53
  simp only [hs]
  unfold roundShift
  simp [Nat.mod_one]

/-- The unit in the last place of a natural number from `2^53` on. -/
theorem round53_large (n : Nat) (h : 2 ^ 53 ≤ n) (hlt : n < 2 ^ 128) :
    1 ≤ (round53 n).2 ∧ 2 ^ (round53 n).2 * 2 ^ 52 ≤ n ∧ n < 2 ^ (round53 n).2 * 2 ^ 53 ∧
      (round53 n).1 = roundShift n (round53 n).2 := by
  have h0 : n ≠ 0 := by
    intro e; subst e; simp at h
  obtain ⟨h1, h2⟩ := bitLength_spec 128 n hlt
  have h3 := h2 h0
  have hlen : 53 < bitLength 128 n := by
    have : 2 ^ 53 < 2 ^ bitLength 128 n := lt_of_le_of_lt h h1
    exact (Nat.pow_lt_pow_iff_right (by decide : 1 < 2)).1 this
  have hs : (round53 n).2 = bitLength 128 n - 53 := rfl
  have e1 : bitLength 128 n - 1 = (bitLength 128 n - 53) + 52 := by omega
  have e2 : bitLength 128 n = (bitLength 128 n - 53) + 53 := by omega
  refine ⟨by omega, ?_, ?_, rfl⟩
  · rw [hs, ← Nat.pow_add, ← e1]
    exact h3
  · rw [hs, ← Nat.pow_add, ← e2]
    exact h1

/-- The test of the match duration has the same outcome on the saturated difference of
the clock readings as on the exact difference. -/
theorem saturate_ge_gameDuration (x : Int) : saturate x ≥ gameDuration ↔ x ≥ gameDuration := by
  unfold saturate gameDuration minInt maxInt
  split_ifs <;> omega

/-- The product of a number below `2^48` and a significand is below `2^128`. -/
theorem product_lt (mant : Nat) (hm : mant < 2 ^ 53) (a : Nat) (h : a < 281474976710656) :
    a * mant < 2 ^ 128 := by
  have : a * mant < 281474976710656 * 2 ^ 53 :=
    lt_of_le_of_lt (Nat.mul_le_mul_right _ (Nat.le_of_lt h))
      (Nat.mul_lt_mul_of_pos_left hm (by norm_num))
  exact lt_trans this (by norm_num)

/-- The binary64 product of a natural number below `2^48` and `1.2`, truncated. -/
theorem scale12_nat (a : Nat) (h : a < 2 ^ 48) :
    (round53 (a * mant12)).1 * 2 ^ (round53 (a * mant12)).2 / 2 ^ 52 = a * 12 / 10 := by
  have p52 : (2 : Nat) ^ 52 = 4503599627370496 := by norm_num
  have p53 : (2 : Nat) ^ 53 = 9007199254740992 := by norm_num
  have p48 : (2 : Nat) ^ 48 = 281474976710656 := by norm_num
  rw [p48] at h
  by_cases hsmall : a * mant12 < 2 ^ 53
  · rw [round53_small _ hsmall]
    simp only [pow_zero, Nat.mul_one]
    rw [p53] at hsmall
    unfold mant12 at hsmall ⊢
    rw [p52]
    omega
  · obtain ⟨hs1, hlo, hhi, hm⟩ := round53_large (a * mant12) (Nat.le_of_not_lt hsmall) (product_lt _ (by decide) a h)
    obtain ⟨q, r, hN, hr, hor, hup, hdown⟩ := roundShift_spec (a * mant12) (round53 (a * mant12)).2
    rw [← hm] at hor hup hdown
    generalize (round53 (a * mant12)).1 = m at hor hup hdown ⊢
    generalize hsdef : (round53 (a * mant12)).2 = s at *
    -- `P` is the unit in the last place of the product
    have hP45 : 2 ^ s < 2 ^ 49 := by
      have p45 : (2 : Nat) ^ 49 = 562949953421312 := by norm_num
      rw [p45]
      rw [p52] at hlo
      unfold mant12 at hlo
      omega
    have hs45 : s < 49 := (Nat.pow_lt_pow_iff_right (by decide)).1 hP45
    have hdiv : 2 ^ (52 - s) * 2 ^ s = 4503599627370496 := by
      rw [← Nat.pow_add, ← p52]; congr 1; omega
    have hP' : 2 ^ s ≤ 281474976710656 := by
      rw [← p48]
      exact Nat.pow_le_pow_right (by decide) (by omega)
    generalize hP : 2 ^ s = P at *
    generalize hc : 2 ^ (52 - s) = c at *
    rw [p52] at hlo ⊢
    rw [p53] at hhi
    unfold mant12 at *
    have hmP : m * P = q * P ∨ m * P = q * P + P := by
      rcases hor with e | e
      · left; rw [e]
      · right; rw [e]; ring
    have hupP : 2 * r > P → m * P = q * P + P := by
      intro hh; rw [hup hh]; ring
    have hdownP : 2 * r < P → m * P = q * P := by
      intro hh; rw [hdown hh]
    generalize m * P = mP at *
    generalize hQ : q * P = Q at *
    by_cases h5 : a % 5 = 0
    · -- the exact product `6a/5` is an integer `T`; the rounding goes up to it
      obtain ⟨y, rfl⟩ : ∃ y, a = 5 * y := ⟨a / 5, by omega⟩
      have hy : 0 < y := by omega
      have hKP : (6 * y * c) * P = 6 * y * 4503599627370496 := by
        rw [Nat.mul_assoc, hdiv]
      have hqK : q < 6 * y * c := by
        apply Nat.lt_of_mul_lt_mul_right (a := P)
        rw [hKP, hQ]; omega
      have hKq : 6 * y * c < q + 2 := by
        apply Nat.lt_of_mul_lt_mul_right (a := P)
        rw [hKP]
        have : (q + 2) * P = Q + 2 * P := by rw [← hQ]; ring
        rw [this]; omega
      have hK : 6 * y * c = q + 1 := by omega
      have hQP : Q + P = 6 * y * 4503599627370496 := by
        rw [← hKP, hK, ← hQ]; ring
      omega
    · obtain ⟨T, f, hT, hf1, hf4⟩ : ∃ T f, 6 * a = 5 * T + f ∧ 1 ≤ f ∧ f ≤ 4 :=
        ⟨6 * a / 5, 6 * a % 5, by omega, by omega, by omega⟩
      have hTdef : a * 12 / 10 = T := by omega
      have h5N : 5 * (a * 5404319552844595) + a = 6 * a * 4503599627370496 := by ring
      have hlow : T * 4503599627370496 ≤ mP := by
        rcases hmP with e | e <;> linarith
      have hhigh : mP < (T + 1) * 4503599627370496 := by
        rcases hmP with e | e <;> linarith
      rw [hTdef]
      omega

/-- The binary64 product of a natural number below `2^48` and `1.1`, truncated. -/
theorem scale11_nat (a : Nat) (h : a < 2 ^ 48) :
    (round53 (a * mant11)).1 * 2 ^ (round53 (a * mant11)).2 / 2 ^ 52 = a * 11 / 10 := by
  have p52 : (2 : Nat) ^ 52 = 4503599627370496 := by norm_num
  have p53 : (2 : Nat) ^ 53 = 9007199254740992 := by norm_num
  have p48 : (2 : Nat) ^ 48 = 281474976710656 := by norm_num
  rw [p48] at h
  by_cases hsmall : a * mant11 < 2 ^ 53
  · rw [round53_small _ hsmall]
    simp only [pow_zero, Nat.mul_one]
    rw [p53] at hsmall
    unfold mant11 at hsmall ⊢
    rw [p52]
    omega
  · obtain ⟨hs1, hlo, hhi, hm⟩ := round53_large (a * mant11) (Nat.le_of_not_lt hsmall) (product_lt _ (by decide) a h)
    obtain ⟨q, r, hN, hr, hor, hup, hdown⟩ := roundShift_spec (a * mant11) (round53 (a * mant11)).2
    rw [← hm] at hor hup hdown
    generalize (round53 (a * mant11)).1 = m at hor hup hdown ⊢
    generalize hsdef : (round53 (a * mant11)).2 = s at *
    have hP45 : 2 ^ s < 2 ^ 49 := by
      have p45 : (2 : Nat) ^ 49 = 562949953421312 := by norm_num
      rw [p45]
      rw [p52] at hlo
      unfold mant11 at hlo
      omega
    have hs45 : s < 49 := (Nat.pow_lt_pow_iff_right (by decide)).1 hP45
    have hdiv : 2 ^ (52 - s) * 2 ^ s = 4503599627370496 := by
      rw [← Nat.pow_add, ← p52]; congr 1; omega
    have hP' : 2 ^ s ≤ 281474976710656 := by
      rw [← p48]
      exact Nat.pow_le_pow_right (by decide) (by omega)
    generalize hP : 2 ^ s = P at *
    generalize hc : 2 ^ (52 - s) = c at *
    rw [p52] at hlo ⊢
    rw [p53] at hhi
    unfold mant11 at *
    have hmP : m * P = q * P ∨ m * P = q * P + P := by
      rcases hor with e | e
      · left; rw [e]
      · right; rw [e]; ring
    generalize m * P = mP at *
    generalize hQ : q * P = Q at *
    have h10N : 10 * (a * 4953959590107546) = 11 * a * 4503599627370496 + 4 * a := by ring
    obtain ⟨T, f, hT, hf9⟩ : ∃ T f, 11 * a = 10 * T + f ∧ f ≤ 9 :=
      ⟨11 * a / 10, 11 * a % 10, by omega, by omega⟩
    have hTdef : a * 11 / 10 = T := by omega
    have hhigh : mP < (T + 1) * 4503599627370496 := by
      rcases hmP with e | e <;> linarith
    have hlow : T * 4503599627370496 ≤ mP := by
      by_cases h0 : f = 0
      · -- the exact product `11a/10` is an integer `T`, a multiple of the unit `P`
        have hKP : (T * c) * P = T * 4503599627370496 := by
          rw [Nat.mul_assoc, hdiv]
        have hKq : T * c < q + 1 := by
          apply Nat.lt_of_mul_lt_mul_right (a := P)
          rw [hKP]
          have : (q + 1) * P = Q + P := by rw [← hQ]; ring
          rw [this]; omega
        have hle : (T * c) * P ≤ q * P := Nat.mul_le_mul_right P (by omega)
        rw [hKP, hQ] at hle
        rcases hmP with e | e <;> omega
      · have hf1 : 1 ≤ f := by omega
        rcases hmP with e | e <;> linarith
    rw [hTdef]
    omega

/-- From the magnitude to the integer: the sign is kept and the fraction discarded. -/
theorem float64Scale_nat (x : Int) (mant tenths : Nat) (h : x.natAbs < 2 ^ 48)
    (ht : tenths ≤ 12)
    (hnat : (round53 (x.natAbs * mant)).1 * 2 ^ (round53 (x.natAbs * mant)).2 / 2 ^ 52 =
      x.natAbs * tenths / 10) :
    float64Scale x mant = Int.tdiv (x * tenths) 10 := by
  have hsmall : round53 x.natAbs = (x.natAbs, 0) :=
    round53_small _ (lt_trans h (by norm_num))
  have p48 : (2 : Nat) ^ 48 = 281474976710656 := by norm_num
  rw [p48] at h
  have hv : x.natAbs * tenths / 10 < 562949953421312 := by
    have : x.natAbs * tenths ≤ x.natAbs * 12 := Nat.mul_le_mul_left _ ht
    omega
  unfold float64Scale
  simp only [hsmall, Nat.add_zero, hnat]
  by_cases hx : x < 0
  · rw [if_pos hx]
    have e : x = -(x.natAbs : Int) := by omega
    have e2 : x * (tenths : Int) = -((x.natAbs * tenths : Nat) : Int) := by
      rw [Nat.cast_mul]
      conv_lhs => rw [e]
      ring
    rw [e2, Int.neg_tdiv]
    have := Int.ofNat_tdiv (x.natAbs * tenths) 10
    rw [this]
    rw [if_pos]
    · rfl
    · unfold minInt maxInt
      constructor <;> omega
  · rw [if_neg hx]
    have e : x = (x.natAbs : Int) := by omega
    have e2 : x * (tenths : Int) = ((x.natAbs * tenths : Nat) : Int) := by
      rw [Nat.cast_mul]
      conv_lhs => rw [e]
    rw [e2]
    have := Int.ofNat_tdiv (x.natAbs * tenths) 10
    rw [this]
    rw [if_pos]
    · rfl
    · unfold minInt maxInt
      constructor <;> omega

/-- On every integer of magnitude below `2^48` the binary64 computations
`int(float64(x) * 1.2)` and `int(float64(x) * 1.1)` give the exact products truncated
toward zero. -/
theorem float64Scale_eq_tdiv (x : Int) (h : x.natAbs < 2 ^ 48) :
    float64Scale x mant12 = Int.tdiv (x * 12) 10 ∧
    float64Scale x mant11 = Int.tdiv (x * 11) 10 :=
  ⟨float64Scale_nat x mant12 12 h (by decide) (scale12_nat _ h),
    float64Scale_nat x mant11 11 h (by decide) (scale11_nat _ h)⟩

/-! ## Combat resolver: properties -/

/-- For a non-negative `x`, truncating `x * 1.2` toward zero is taking its floor. -/
theorem tdiv_eq_floor (x : Int) (h : 0 ≤ x) :
    Int.tdiv (x * 12) 10 = ⌊(x : ℚ) * (12 / 10)⌋ := by
  have h1 : (x : ℚ) * (12 / 10) = ((x * 12 : Int) : ℚ) / ((10 : Nat) : ℚ) := by
    push_cast; ring
  rw [h1, Rat.floor_intCast_div_natCast]
  exact Int.tdiv_eq_ediv (by omega) (by decide)

/-- Claim C1, as stated, fails, in three ways. (1) For `ATK = -1 ≥ DEF = -5` and a
critical hit (crit chance 50, roll 0) `calculateDamage` returns `4`, because the
conversion to `int` truncates `-1.2` to `-1`, while `max(0, floor(ATK*1.2) - DEF)` is
`3`. (2) For `ATK = 9223372036854775807 ≥ DEF = -1` and no critical hit the
subtraction wraps around to a negative number and `calculateDamage` returns `0`, not
`ATK - DEF`. (3) For `ATK = 4503599627370499 ≥ DEF = 0` and a critical hit the
binary64 product is rounded and `calculateDamage` returns `5404319552844599`, while
`floor(ATK*1.2)` is `5404319552844598`. -/
theorem calculateDamage_floor_counterexample :
    (attackOf (.troop (sampleTroop "Pawn" (-1) 1)) = some (-1) ∧
      defenseOf (.tower (sampleKing 100 (-5) 0)) = some (-5) ∧
      (-1 : Int) ≥ -5 ∧ (50 : Int) > 0 ∧ (0 : Int) < 50 ∧
      calculateDamage (.troop (sampleTroop "Pawn" (-1) 1)) (.tower (sampleKing 100 (-5) 0)) 50 0 = 4 ∧
      max 0 (⌊((-1 : Int) : ℚ) * (12 / 10)⌋ - (-5)) = 3) ∧
    (attackOf (.troop (sampleTroop "Pawn" 9223372036854775807 1)) = some 9223372036854775807 ∧
      defenseOf (.tower (sampleKing 100 (-1) 0)) = some (-1) ∧
      (9223372036854775807 : Int) ≥ -1 ∧
      calculateDamage (.troop (sampleTroop "Pawn" 9223372036854775807 1))
        (.tower (sampleKing 100 (-1) 0)) 0 0 = 0 ∧
      (9223372036854775807 : Int) - (-1) ≠ 0) ∧
    (attackOf (.troop (sampleTroop "Pawn" 4503599627370499 1)) = some 4503599627370499 ∧
      defenseOf (.tower (sampleKing 100 0 0)) = some 0 ∧
      (4503599627370499 : Int) ≥ 0 ∧ (50 : Int) > 0 ∧ (0 : Int) < 50 ∧
      calculateDamage (.troop (sampleTroop "Pawn" 4503599627370499 1))
        (.tower (sampleKing 100 0 0)) 50 0 = 5404319552844599 ∧
      max 0 (⌊((4503599627370499 : Int) : ℚ) * (12 / 10)⌋ - 0) = 5404319552844598) := by
  refine ⟨⟨rfl, rfl, by decide, by decide, by decide, by decide, ?_⟩,
    ⟨rfl, rfl, by decide, by decide, by decide⟩,
    ⟨rfl, rfl, by decide, by decide, by decide, by decide, ?_⟩⟩
  · have : ⌊((-1 : Int) : ℚ) * (12 / 10)⌋ = -2 := by
      rw [Int.floor_eq_iff]; norm_num
    rw [this]; decide
  · have : ⌊((4503599627370499 : Int) : ℚ) * (12 / 10)⌋ = 5404319552844598 := by
      rw [Int.floor_eq_iff]; norm_num
    rw [this]; decide

/-- Claim C1, amended: for an attacker with attack `ATK` and a defender with defense
`DEF`, `ATK ≥ DEF` and `ATK - DEF ≤ maxInt` (the subtraction does not wrap around),
`calculateDamage` returns `ATK - DEF` when no critical hit occurs (`critChance ≤ 0`
or `randNum ≥ critChance`); when one occurs (`critChance > 0` and
`randNum < critChance`), `ATK` is below `2^48` in magnitude (so that the binary64
product is exact up to the fraction) and `trunc(ATK*1.2) - DEF ≤ maxInt`, it returns
`max(0, trunc(ATK*1.2) - DEF)`, where `trunc` rounds toward zero; for `ATK ≥ 0` that
is `floor(ATK*1.2)`. -/
theorem calculateDamage_of_attack_ge_defense (attacker defender : Combatant)
    (ATK DEF critChance randNum : Int)
    (hA : attackOf attacker = some ATK) (hD : defenseOf defender = some DEF) (h : ATK ≥ DEF)
    (hsub : ATK - DEF ≤ maxInt) :
    ((critChance ≤ 0 ∨ randNum ≥ critChance) →
      calculateDamage attacker defender critChance randNum = ATK - DEF) ∧
    ((critChance > 0 ∧ randNum < critChance) → ATK.natAbs < 2 ^ 48 →
      Int.tdiv (ATK * 12) 10 - DEF ≤ maxInt →
      calculateDamage attacker defender critChance randNum = max 0 (Int.tdiv (ATK * 12) 10 - DEF)) ∧
    (0 ≤ ATK → Int.tdiv (ATK * 12) 10 = ⌊(ATK : ℚ) * (12 / 10)⌋) := by
  have e1 : wrap (ATK - DEF) = ATK - DEF :=
    wrap_of_inRange _ (by unfold minInt; omega) hsub
  refine ⟨?_, ?_, tdiv_eq_floor ATK⟩
  · intro hc
    simp only [calculateDamage, hA, hD, e1]
    split_ifs <;> omega
  · intro hc hsmall hcrit
    have p48 : (2 : Nat) ^ 48 = 281474976710656 := by norm_num
    have hs := hsmall
    rw [p48] at hs
    have e2 : wrap (Int.tdiv (ATK * 12) 10 - DEF) = Int.tdiv (ATK * 12) 10 - DEF := by
      apply wrap_of_inRange _ _ hcrit
      unfold minInt
      by_cases hneg : 0 ≤ ATK
      · rw [Int.tdiv_eq_ediv (by omega) (by decide)]
        omega
      · have e : ATK * 12 = -((-ATK) * 12) := by ring
        rw [e, Int.neg_tdiv, Int.tdiv_eq_ediv (by omega) (by decide)]
        omega
    simp only [calculateDamage, hA, hD, e1, (float64Scale_eq_tdiv ATK hsmall).1, e2]
    split_ifs <;> omega

/-- The amended claim C1 at a troop with attack 30 against a tower with defense 10,
crit chance 50 and roll 7: a critical hit of `trunc(36) - 10`. -/
theorem calculateDamage_of_attack_ge_defense_witness :
    calculateDamage (.troop (sampleTroop "Pawn" 30 3)) (.tower (sampleKing 100 10 50)) 50 7 =
      max 0 (Int.tdiv (30 * 12) 10 - 10) :=
  (calculateDamage_of_attack_ge_defense (.troop (sampleTroop "Pawn" 30 3))
    (.tower (sampleKing 100 10 50)) 30 10 50 7 rfl rfl (by decide) (by decide)).2.1
    ⟨by decide, by decide⟩ (by decide) (by decide)

/-- Claim C2, as stated, fails: for `ATK = -9223372036854775808 < DEF = 1` the
subtraction `attack - defense` wraps around to `9223372036854775807`, which is not
negative, and without a critical hit `calculateDamage` returns it, not 0. -/
theorem calculateDamage_wrap_counterexample :
    attackOf (.troop (sampleTroop "Pawn" (-9223372036854775808) 1)) = some (-9223372036854775808) ∧
    defenseOf (.tower (sampleKing 100 1 0)) = some 1 ∧
    (-9223372036854775808 : Int) < 1 ∧
    calculateDamage (.troop (sampleTroop "Pawn" (-9223372036854775808) 1))
      (.tower (sampleKing 100 1 0)) 0 0 = 9223372036854775807 := by
  decide

/-- Claim C2, amended: for an attacker with attack `ATK` and a defender with defense
`DEF`, `ATK < DEF` and `minInt ≤ ATK - DEF` (the subtraction does not wrap around),
`calculateDamage` returns 0 for every crit chance and every roll. -/
theorem calculateDamage_of_attack_lt_defense (attacker defender : Combatant)
    (ATK DEF critChance randNum : Int)
    (hA : attackOf attacker = some ATK) (hD : defenseOf defender = some DEF) (h : ATK < DEF)
    (hsub : minInt ≤ ATK - DEF) :
    calculateDamage attacker defender critChance randNum = 0 := by
  have e1 : wrap (ATK - DEF) = ATK - DEF :=
    wrap_of_inRange _ hsub (by unfold maxInt; omega)
  simp only [calculateDamage, hA, hD, e1]
  split_ifs <;> omega

/-- The amended claim C2 at attack 19 against defense 20 with a certain critical hit,
where `floor(19*1.2) - 20 = 2` would be positive. -/
theorem calculateDamage_of_attack_lt_defense_witness :
    calculateDamage (.troop (sampleTroop "Pawn" 19 3)) (.tower (sampleKing 100 20 50)) 100 0 = 0 :=
  calculateDamage_of_attack_lt_defense (.troop (sampleTroop "Pawn" 19 3))
    (.tower (sampleKing 100 20 50)) 19 20 100 0 rfl rfl (by decide) (by decide)

/-! ## Progression engine: properties -/

/-- Claim C7, as stated, fails: one call of `levelUp` on a player of level
`9223372036854775807` with 90 EXP, whose EXP is below `100 + Level*10`, finds the
threshold wrapped around to `90`, raises the level, and the level wraps around to
`-9223372036854775808`; and a player of level `922337203685477581` with 0 EXP, also
below `100 + Level*10`, is raised to the next level. -/
theorem levelUp_wrap_counterexample :
    ((samplePlayer "alice" 0 1 90 5).EXP < 100 + (9223372036854775807 : Int) * 10 ∧
      (levelUp (sampleStore 100)
        { samplePlayer "alice" 0 1 90 5 with Level := 9223372036854775807 }).2.1.Level =
        -9223372036854775808) ∧
    ((samplePlayer "alice" 0 1 0 5).EXP < 100 + (922337203685477581 : Int) * 10 ∧
      (levelUp (sampleStore 100)
        { samplePlayer "alice" 0 1 0 5 with Level := 922337203685477581 }).2.1.Level =
        922337203685477582) := by
  decide

/-- The threshold of `levelUp` and the next level where nothing wraps around. -/
theorem levelThreshold_inRange (level : Int) (hlo : minInt ≤ level * 10)
    (hhi : 100 + level * 10 ≤ maxInt) :
    wrap (100 + wrap (level * 10)) = 100 + level * 10 ∧ wrap (level + 1) = level + 1 := by
  unfold minInt at hlo
  unfold maxInt at hhi
  have e1 : wrap (level * 10) = level * 10 := by unfold wrap; omega
  rw [e1]
  constructor <;> (unfold wrap; omega)

/-- Claim C7, amended: for a player whose threshold `100 + Level*10` is computed
without wrap-around (`minInt ≤ Level*10` and `100 + Level*10 ≤ maxInt`), one call of
`levelUp` never decreases `Level`; it leaves `Level` unchanged when
`EXP < 100 + Level*10` and raises it by exactly 1 when `EXP ≥ 100 + Level*10`,
however far `EXP` is above the threshold; `EXP` is unchanged. -/
theorem levelUp_single_step (s : Store) (player : Player)
    (hlo : minInt ≤ player.Level * 10) (hhi : 100 + player.Level * 10 ≤ maxInt) :
    player.Level ≤ (levelUp s player).2.1.Level ∧
    (player.EXP < 100 + player.Level * 10 → (levelUp s player).2.1.Level = player.Level) ∧
    (player.EXP ≥ 100 + player.Level * 10 → (levelUp s player).2.1.Level = player.Level + 1) ∧
    (levelUp s player).2.1.EXP = player.EXP := by
  obtain ⟨e1, e2⟩ := levelThreshold_inRange player.Level hlo hhi
  unfold levelUp
  simp only [e1, e2]
  by_cases h : player.EXP ≥ 100 + player.Level * 10
  · simp [h]
  · simp [h]

/-- The amended claim C7 at a level-1 player with 500 EXP, enough for several levels:
one call of `levelUp` gives level 2. -/
theorem levelUp_single_step_witness :
    (levelUp (sampleStore 100) (samplePlayer "alice" 0 1 500 5)).2.1.Level = 1 + 1 :=
  (levelUp_single_step (sampleStore 100) (samplePlayer "alice" 0 1 500 5) (by decide)
    (by decide)).2.2.1 (by decide)

/-- The player record after `levelUp`. -/
theorem levelUp_player (s : Store) (p : Player) :
    (levelUp s p).2.1 =
      { p with Level := if p.EXP ≥ wrap (100 + wrap (p.Level * 10)) then wrap (p.Level + 1)
                        else p.Level } := by
  unfold levelUp
  by_cases h : p.EXP ≥ wrap (100 + wrap (p.Level * 10)) <;> simp [h]

/-- The towers after `levelUp`: those of the player are scaled if the level rises. -/
theorem towersOf_levelUp (s : Store) (p : Player) (ref : Nat) :
    (levelUp s p).1.towersOf ref =
      if p.EXP ≥ wrap (100 + wrap (p.Level * 10)) ∧ ref = p.Towers
        then (s.towersOf ref).map levelUpTower
      else s.towersOf ref := by
  unfold levelUp
  by_cases h : p.EXP ≥ wrap (100 + wrap (p.Level * 10))
  · simp only [h, if_true, true_and]
    unfold Store.towersOf
    simp only [List.getD_eq_getElem?_getD, List.getElem?_set]
    by_cases e : p.Towers = ref
    · subst e
      by_cases hl : p.Towers < s.towers.length
      · simp [hl]
      · simp [hl, List.getElem?_eq_none (Nat.le_of_not_lt hl)]
    · have e2 : ¬ ref = p.Towers := fun x => e x.symm
      simp [e, e2]
  · simp [h]

/-- The troops after `levelUp`: those of the player are scaled if the level rises. -/
theorem troopsOf_levelUp (s : Store) (p : Player) (ref : Nat) :
    (levelUp s p).1.troopsOf ref =
      if p.EXP ≥ wrap (100 + wrap (p.Level * 10)) ∧ ref = p.Troops
        then (s.troopsOf ref).map levelUpTroop
      else s.troopsOf ref := by
  unfold levelUp
  by_cases h : p.EXP ≥ wrap (100 + wrap (p.Level * 10))
  · simp only [h, if_true, true_and]
    unfold Store.troopsOf
    simp only [List.getD_eq_getElem?_getD, List.getElem?_set]
    by_cases e : p.Troops = ref
    · subst e
      by_cases hl : p.Troops < s.troops.length
      · simp [hl]
      · simp [hl, List.getElem?_eq_none (Nat.le_of_not_lt hl)]
    · have e2 : ¬ ref = p.Troops := fun x => e x.symm
      simp [e, e2]
  · simp [h]

/-- The procedure `levelUp` writes no game-over line. -/
theorem levelUp_out (s : Store) (p : Player) (c : Nat) (winner : String) :
    Event.gameOverMessage c winner ∉ (levelUp s p).2.2 := by
  unfold levelUp
  by_cases h : p.EXP ≥ wrap (100 + wrap (p.Level * 10)) <;> simp [h]

/-- The player record after `awardWinEXP`. -/
theorem awardWinEXP_player (s : Store) (p : Player) :
    (awardWinEXP s p).2.1 =
      { p with EXP := wrap (p.EXP + 30)
               Level := if wrap (p.EXP + 30) ≥ wrap (100 + wrap (p.Level * 10))
                 then wrap (p.Level + 1) else p.Level } := by
  simp [awardWinEXP, levelUp_player]

/-- The towers after `awardWinEXP`. -/
theorem towersOf_awardWinEXP (s : Store) (p : Player) (ref : Nat) :
    (awardWinEXP s p).1.towersOf ref =
      if wrap (p.EXP + 30) ≥ wrap (100 + wrap (p.Level * 10)) ∧ ref = p.Towers
        then (s.towersOf ref).map levelUpTower
      else s.towersOf ref := by
  simp [awardWinEXP, towersOf_levelUp]

/-- The procedure `awardWinEXP` writes no game-over line. -/
theorem awardWinEXP_out (s : Store) (p : Player) (c : Nat) (winner : String) :
    Event.gameOverMessage c winner ∉ (awardWinEXP s p).2.2 := by
  simp [awardWinEXP, levelUp_out, savePlayerData]

/-- The procedure `awardWinEXP` keeps the length of every `Towers` slice. -/
theorem length_towersOf_awardWinEXP (s : Store) (p : Player) (ref : Nat) :
    ((awardWinEXP s p).1.towersOf ref).length = (s.towersOf ref).length := by
  rw [towersOf_awardWinEXP]
  split_ifs <;> simp

/-- The procedure `awardWinEXP` keeps the length of every `Troops` slice. -/
theorem length_troopsOf_awardWinEXP (s : Store) (p : Player) (ref : Nat) :
    ((awardWinEXP s p).1.troopsOf ref).length = (s.troopsOf ref).length := by
  simp only [awardWinEXP, troopsOf_levelUp]
  split_ifs <;> simp

/-- Scaling 0 by 1.1 gives 0. -/
theorem float64Scale_zero : float64Scale 0 mant11 = 0 := by decide

/-! ## Reads from the store and from the player records -/

/-- Reading a `Towers` slice after `slice[i] = t` on the slice `ref`. -/
theorem towersOf_setTower (s : Store) (ref i : Nat) (t : Tower) (ref2 : Nat) :
    (s.setTower ref i t).towersOf ref2 =
      if ref2 = ref then (s.towersOf ref).set i t else s.towersOf ref2 := by
  unfold Store.setTower Store.towersOf
  simp only [List.getD_eq_getElem?_getD, List.getElem?_set]
  by_cases h : ref = ref2
  · subst h
    by_cases hl : ref < s.towers.length
    · simp [hl]
    · simp [hl, List.getElem?_eq_none (Nat.le_of_not_lt hl)]
  · have h2 : ¬ ref2 = ref := fun e => h e.symm
    simp [h, h2]

/-- An assignment to a tower leaves every `Troops` slice as it is. -/
theorem troopsOf_setTower (s : Store) (ref i : Nat) (t : Tower) (ref2 : Nat) :
    (s.setTower ref i t).troopsOf ref2 = s.troopsOf ref2 := rfl

/-- An assignment to a tower keeps the length of every `Towers` slice. -/
theorem length_towersOf_setTower (s : Store) (ref i : Nat) (t : Tower) (ref2 : Nat) :
    ((s.setTower ref i t).towersOf ref2).length = (s.towersOf ref2).length := by
  rw [towersOf_setTower]
  split_ifs with h
  · subst h; simp
  · rfl

/-- A non-empty list has an element 0. -/
theorem getElem?_zero_of_length_pos {α : Type} (l : List α) (h : 0 < l.length) :
    ∃ a, l[0]? = some a := by
  cases l with
  | nil => simp at h
  | cons a rest => exact ⟨a, by simp⟩

/-- A record that is read is inside the list of records. -/
theorem lt_length_of_getElem? {α : Type} (l : List α) (i : Nat) (a : α) (h : l[i]? = some a) :
    i < l.length := (List.getElem?_eq_some.1 h).1

/-- An assignment through a pointer that changes only EXP and level leaves the rest
of every record as it is. -/
theorem map_eraseProgress_set (players : List Player) (i : Nat) (p q : Player)
    (h : players[i]? = some p) (hq : eraseProgress q = eraseProgress p) :
    (players.set i q).map eraseProgress = players.map eraseProgress := by
  apply List.ext_getElem?
  intro n
  rw [List.getElem?_map, List.getElem?_map, List.getElem?_set]
  by_cases e : i = n
  · subst e
    simp [lt_length_of_getElem? _ _ _ h, h, hq]
  · simp [e]

/-- Two lists of records that agree up to EXP and level hold records that agree up to
EXP and level. -/
theorem eraseProgress_getElem? (ps qs : List Player) (h : ps.map eraseProgress = qs.map eraseProgress)
    (i : Nat) (q : Player) (hq : qs[i]? = some q) :
    ∃ p, ps[i]? = some p ∧ eraseProgress p = eraseProgress q := by
  have e := congrArg (fun l => l[i]?) h
  simp only [List.getElem?_map, hq, Option.map_some'] at e
  cases hp : ps[i]? with
  | none => simp [hp] at e
  | some p =>
    simp only [hp, Option.map_some', Option.some.injEq] at e
    exact ⟨p, rfl, e⟩

/-- Records that agree up to EXP and level have the same slices and mana. -/
theorem fields_of_eraseProgress (p q : Player) (h : eraseProgress p = eraseProgress q) :
    p.Towers = q.Towers ∧ p.Troops = q.Troops ∧ p.Mana = q.Mana ∧ p.Username = q.Username ∧
      p.Conn = q.Conn := by
  unfold eraseProgress at h
  injection h with h1 h2 h3 h4 h5 h6 h7 h8
  exact ⟨h5, h6, h8, h1, h7⟩

/-! ## The combat block -/

/-- The damage statements do not panic when both players have a tower and a troop,
and they change no slice length and no troop. -/
theorem damageFirstTowers_total (s : Store) (towers1 troops1 towers2 troops2 : Nat)
    (inp : TickInput)
    (h1 : 0 < (s.troopsOf troops1).length) (h2 : 0 < (s.troopsOf troops2).length)
    (h3 : 0 < (s.towersOf towers1).length) (h4 : 0 < (s.towersOf towers2).length) :
    ∃ s1, damageFirstTowers s towers1 troops1 towers2 troops2 inp = some s1 ∧
      (∀ ref, (s1.towersOf ref).length = (s.towersOf ref).length) ∧
      (∀ ref, s1.troopsOf ref = s.troopsOf ref) := by
  unfold damageFirstTowers
  obtain ⟨troop2, e1⟩ := getElem?_zero_of_length_pos _ h2
  obtain ⟨troop1, e1b⟩ := getElem?_zero_of_length_pos _ h1
  obtain ⟨tower1, e2⟩ := getElem?_zero_of_length_pos _ h3
  obtain ⟨tower2, e3⟩ := getElem?_zero_of_length_pos _ h4
  simp only [e1, e2, e3, e1b, Option.bind_eq_bind, Option.some_bind, troopsOf_setTower]
  obtain ⟨d1, hd1⟩ : ∃ d, d = calculateDamage (.troop troop2) (.tower tower1) tower2.CRIT inp.randNum1 :=
    ⟨_, rfl⟩
  rw [← hd1]
  obtain ⟨tower2b, e4⟩ := getElem?_zero_of_length_pos
    ((s.setTower towers1 0 { tower1 with HP := wrap (tower1.HP - d1) }).towersOf towers2)
    (by rw [length_towersOf_setTower]; exact h4)
  obtain ⟨tower1b, e5⟩ := getElem?_zero_of_length_pos
    ((s.setTower towers1 0 { tower1 with HP := wrap (tower1.HP - d1) }).towersOf towers1)
    (by rw [length_towersOf_setTower]; exact h3)
  rw [e4, e5]
  exact ⟨_, rfl, fun ref => by simp only [Option.some_bind, length_towersOf_setTower],
    fun ref => rfl⟩

/-- The clamp statement changes only EXP, and only through the attacker's pointer. -/
theorem clampDestroyed_frame (players : List Player) (s : Store) (towers attacker : Nat)
    (r : List Player × Store) (h : clampDestroyed players s towers attacker = some r) :
    r.1.map eraseProgress = players.map eraseProgress := by
  unfold clampDestroyed at h
  cases e : (s.towersOf towers)[0]? with
  | none => simp [e] at h
  | some tower =>
    simp only [e, Option.bind_eq_bind, Option.some_bind] at h
    split_ifs at h
    · cases ha : players[attacker]? with
      | none => simp [ha] at h
      | some record =>
        simp only [ha, Option.some_bind, Option.some.injEq] at h
        subst h
        exact map_eraseProgress_set players attacker record _ ha rfl
    · simp only [Option.some.injEq] at h
      subst h
      rfl

/-- The clamp statement does not panic when the owner has a tower and the attacker's
pointer is valid; it changes no slice length and no troop. -/
theorem clampDestroyed_total (players : List Player) (s : Store) (towers attacker : Nat)
    (record : Player) (h : 0 < (s.towersOf towers).length)
    (ha : players[attacker]? = some record) :
    ∃ r, clampDestroyed players s towers attacker = some r ∧
      (∀ ref, (r.2.towersOf ref).length = (s.towersOf ref).length) ∧
      (∀ ref, r.2.troopsOf ref = s.troopsOf ref) := by
  unfold clampDestroyed
  obtain ⟨tower, e⟩ := getElem?_zero_of_length_pos _ h
  simp only [e, ha, Option.bind_eq_bind, Option.some_bind]
  split_ifs
  · exact ⟨_, rfl, fun ref => length_towersOf_setTower _ _ _ _ _, fun ref => rfl⟩
  · exact ⟨_, rfl, fun ref => rfl, fun ref => rfl⟩

/-- The combat block changes only the EXP of player records. -/
theorem resolveCombat_frame (players : List Player) (s : Store) (p1 p2 : Nat) (inp : TickInput)
    (r : List Player × Store) (h : resolveCombat players s p1 p2 inp = some r) :
    r.1.map eraseProgress = players.map eraseProgress := by
  unfold resolveCombat at h
  cases h1 : players[p1]? with
  | none => simp [h1] at h
  | some player1 =>
    cases h2 : players[p2]? with
    | none => simp [h1, h2] at h
    | some player2 =>
      simp only [h1, h2, Option.bind_eq_bind, Option.some_bind] at h
      split at h
      · simp only [Option.bind_eq_some] at h
        obtain ⟨s1, _, ⟨ps2, s2⟩, hc1, hc2⟩ := h
        have f1 := clampDestroyed_frame _ _ _ _ _ hc1
        have f2 := clampDestroyed_frame _ _ _ _ _ hc2
        simp only at f1 f2
        rw [f2, f1]
      · simp only [Option.some.injEq] at h
        subst h
        rfl

/-- The combat block does not panic when both pointers are valid and both players have
a troop, whether or not the players share records or backing arrays; it changes no
slice length and no troop. -/
theorem resolveCombat_total (players : List Player) (s : Store) (p1 p2 : Nat) (inp : TickInput)
    (player1 player2 : Player) (hp1 : players[p1]? = some player1)
    (hp2 : players[p2]? = some player2)
    (h1 : 0 < (s.troopsOf player1.Troops).length) (h2 : 0 < (s.troopsOf player2.Troops).length) :
    ∃ r, resolveCombat players s p1 p2 inp = some r ∧
      (∀ ref, (r.2.towersOf ref).length = (s.towersOf ref).length) ∧
      (∀ ref, r.2.troopsOf ref = s.troopsOf ref) := by
  unfold resolveCombat
  simp only [hp1, hp2, Option.bind_eq_bind, Option.some_bind]
  split
  next hlen =>
    obtain ⟨s1, e1, l1, t1⟩ := damageFirstTowers_total s player1.Towers player1.Troops
      player2.Towers player2.Troops inp h1 h2 hlen.1 hlen.2
    obtain ⟨r2, e2, l2, t2⟩ := clampDestroyed_total players s1 player1.Towers p2 player2
      (by rw [l1]; exact hlen.1) hp2
    have f2 := clampDestroyed_frame _ _ _ _ _ e2
    obtain ⟨q1, hq1, -⟩ := eraseProgress_getElem? r2.1 players f2 p1 player1 hp1
    obtain ⟨r3, e3, l3, t3⟩ := clampDestroyed_total r2.1 r2.2 player2.Towers p1 q1
      (by rw [l2, l1]; exact hlen.2) hq1
    obtain ⟨ps2, s2⟩ := r2
    simp only [e1, e2, e3, Option.some_bind]
    exact ⟨_, rfl, fun ref => by rw [l3, l2, l1], fun ref => by rw [t3, t2, t1]⟩
  next => exact ⟨_, rfl, fun _ => rfl, fun _ => rfl⟩

/-- The combat block for two different player records whose `Towers` slices are
different arrays: each king tower takes the damage of the other player's first troop
and is clamped at 0, and a player whose troop brought the other king tower to 0
receives its EXP. -/
theorem resolveCombat_separate (players : List Player) (s : Store) (i j : Nat) (p1 p2 : Player)
    (inp : TickInput) (k1 k2 : Tower) (r1 r2 : List Tower) (u1 u2 : Troop) (us1 us2 : List Troop)
    (hi : players[i]? = some p1) (hj : players[j]? = some p2)
    (hne : p1.Towers ≠ p2.Towers)
    (ht1 : s.towersOf p1.Towers = k1 :: r1) (ht2 : s.towersOf p2.Towers = k2 :: r2)
    (hu1 : s.troopsOf p1.Troops = u1 :: us1) (hu2 : s.troopsOf p2.Troops = u2 :: us2) :
    ∃ ps s1, resolveCombat players s i j inp = some (ps, s1) ∧
      ps[i]? = some
        (if wrap (k2.HP - calculateDamage (.troop u1) (.tower k2) k1.CRIT inp.randNum2) ≤ 0
          then awardEXP p1 k2.EXP else p1) ∧
      ps[j]? = some
        (if wrap (k1.HP - calculateDamage (.troop u2) (.tower k1) k2.CRIT inp.randNum1) ≤ 0
          then awardEXP p2 k1.EXP else p2) ∧
      s1.towersOf p1.Towers =
        hitTower k1 (calculateDamage (.troop u2) (.tower k1) k2.CRIT inp.randNum1) :: r1 ∧
      s1.towersOf p2.Towers =
        hitTower k2 (calculateDamage (.troop u1) (.tower k2) k1.CRIT inp.randNum2) :: r2 := by
  have hne2 : p2.Towers ≠ p1.Towers := fun e => hne e.symm
  have hij : i ≠ j := by
    intro e
    subst e
    rw [hi] at hj
    cases hj
    exact hne rfl
  have hji : j ≠ i := fun e => hij e.symm
  have li := lt_length_of_getElem? _ _ _ hi
  have lj := lt_length_of_getElem? _ _ _ hj
  have gi : players[i] = p1 := (List.getElem?_eq_some.1 hi).2
  have gj : players[j] = p2 := (List.getElem?_eq_some.1 hj).2
  obtain ⟨d1, hd1⟩ : ∃ d, d = calculateDamage (.troop u2) (.tower k1) k2.CRIT inp.randNum1 := ⟨_, rfl⟩
  obtain ⟨d2, hd2⟩ : ∃ d, d = calculateDamage (.troop u1) (.tower k2) k1.CRIT inp.randNum2 := ⟨_, rfl⟩
  rw [← hd1, ← hd2]
  refine ⟨(if wrap (k2.HP - d2) ≤ 0 then
      (if wrap (k1.HP - d1) ≤ 0 then players.set j (awardEXP p2 k1.EXP) else players).set i
        (awardEXP p1 k2.EXP)
      else (if wrap (k1.HP - d1) ≤ 0 then players.set j (awardEXP p2 k1.EXP) else players)),
    combatStore s p1.Towers p2.Towers k1 k2 d1 d2, ?_, ?_, ?_, ?_, ?_⟩
  · by_cases c1 : wrap (k1.HP - d1) ≤ 0 <;> by_cases c2 : wrap (k2.HP - d2) ≤ 0 <;>
    simp [resolveCombat, damageFirstTowers, clampDestroyed, combatStore, awardEXP,
      towersOf_setTower, troopsOf_setTower, ht1, ht2, hu1, hu2, hne, hne2, c1, c2, hi, hj,
      ← hd1, ← hd2, List.getElem?_set, hij, hji, li, lj, gi, gj]
  · by_cases c1 : wrap (k1.HP - d1) ≤ 0 <;> by_cases c2 : wrap (k2.HP - d2) ≤ 0 <;>
    simp [c1, c2, List.getElem?_set, hij, hji, li, lj, hi, gi, gj]
  · by_cases c1 : wrap (k1.HP - d1) ≤ 0 <;> by_cases c2 : wrap (k2.HP - d2) ≤ 0 <;>
    simp [c1, c2, List.getElem?_set, hij, hji, li, lj, hj, gi, gj]
  all_goals
    by_cases c1 : wrap (k1.HP - d1) ≤ 0 <;> by_cases c2 : wrap (k2.HP - d2) ≤ 0 <;>
    simp [combatStore, towersOf_setTower, ht1, ht2, hne, hne2, hitTower, c1, c2]

/-- Damage without a critical hit, where the subtraction does not wrap around:
`max(0, ATK - DEF)`. -/
theorem calculateDamage_no_crit (u : Troop) (k : Tower) (randNum : Int)
    (hlo : minInt ≤ u.ATK - k.DEF) (hhi : u.ATK - k.DEF ≤ maxInt) :
    calculateDamage (.troop u) (.tower k) 0 randNum = max 0 (u.ATK - k.DEF) := by
  simp only [calculateDamage, attackOf, defenseOf, wrap_of_inRange _ hlo hhi]
  split_ifs <;> omega

/-- The hit points of a king tower after a hit, where the subtraction does not wrap
around. -/
theorem hitTower_HP (k : Tower) (d : Int) (hlo : minInt ≤ k.HP - d) (hhi : k.HP - d ≤ maxInt) :
    (hitTower k d).HP = max 0 (k.HP - d) := by
  simp only [hitTower, wrap_of_inRange _ hlo hhi]
  split_ifs <;> omega

/-- The hit points of a king tower after a hit are not negative. -/
theorem hitTower_HP_nonneg (k : Tower) (d : Int) : 0 ≤ (hitTower k d).HP := by
  simp only [hitTower]
  split_ifs <;> omega

/-! ## The tick: properties -/

/-- A tick on a match that is over returns at once. -/
theorem updateGameState_of_gameOver (w : World) (inp : TickInput) (h : w.game.gameOver = true) :
    updateGameState w inp = some w := by
  simp [updateGameState, h]

/-- A run of ticks on a match that is over changes nothing. -/
theorem runTicks_of_gameOver (w : World) (inps : List TickInput) (h : w.game.gameOver = true) :
    runTicks w inps = some w := by
  induction inps with
  | nil => rfl
  | cons inp rest ih => simp [runTicks, updateGameState_of_gameOver w inp h, ih]

/-- A run of ticks on a match that is over has no transition to over. -/
theorem overTransitions_of_gameOver (w : World) (inps : List TickInput)
    (h : w.game.gameOver = true) : overTransitions w (tickTrace w inps) = 0 := by
  induction inps with
  | nil => rfl
  | cons inp rest ih =>
    simp [tickTrace, updateGameState_of_gameOver w inp h, overTransitions, ih, h]

/-- A run of ticks has at most one transition to over. -/
theorem overTransitions_le_one (w : World) (inps : List TickInput) :
    overTransitions w (tickTrace w inps) ≤ 1 := by
  induction inps generalizing w with
  | nil => simp [tickTrace, overTransitions]
  | cons inp rest ih =>
    cases hw : w.game.gameOver with
    | true => rw [overTransitions_of_gameOver w _ hw]; omega
    | false =>
      simp only [tickTrace]
      cases hstep : updateGameState w inp with
      | none => simp [overTransitions]
      | some w1 =>
        simp only [overTransitions]
        cases hw1 : w1.game.gameOver with
        | true => simp [hw, overTransitions_of_gameOver w1 rest hw1]
        | false => simpa [hw] using ih w1

/-- Claim C10: a tick on a match whose `gameOver` flag is set returns the state it
was given (flag, slots, player records, start time, backing arrays, output), so does
every run of ticks, and in every run of ticks from every state `gameOver` changes
from `false` to `true` at most once. -/
theorem gameOver_terminal (w : World) (inps : List TickInput) :
    (w.game.gameOver = true →
      (∀ inp, updateGameState w inp = some w) ∧ runTicks w inps = some w) ∧
    overTransitions w (tickTrace w inps) ≤ 1 :=
  ⟨fun h => ⟨fun inp => updateGameState_of_gameOver w inp h, runTicks_of_gameOver w inps h⟩,
    overTransitions_le_one w inps⟩

/-- Claim C10 at the sample match with its flag set: a tick changes nothing. -/
theorem gameOver_terminal_witness :
    updateGameState { sampleWorld with game := { sampleWorld.game with gameOver := true } } sampleTick =
      some { sampleWorld with game := { sampleWorld.game with gameOver := true } } :=
  ((gameOver_terminal { sampleWorld with game := { sampleWorld.game with gameOver := true } }
    []).1 rfl).1 sampleTick

/-- A tick on a running match whose duration has elapsed sets `gameOver` and changes
nothing else: no EXP is awarded and nothing is written. -/
theorem updateGameState_timeout (w : World) (inp : TickInput) (p1 p2 : Player)
    (hover : w.game.gameOver = false) (htime : inp.now - w.game.StartTime ≥ gameDuration)
    (h1 : slot1 w = some p1) (h2 : slot2 w = some p2) :
    updateGameState w inp = some { w with game := { w.game with gameOver := true } } := by
  unfold slot1 at h1
  unfold slot2 at h2
  simp only [updateGameState, hover, htime, determineWinner, h1, h2]
  simp
  split_ifs <;> simp

/-- A timed-out tick that returns leaves everything but the flag as it is. -/
theorem updateGameState_timeout_eq (w w1 : World) (inp : TickInput)
    (hover : w.game.gameOver = false) (htime : inp.now - w.game.StartTime ≥ gameDuration)
    (hstep : updateGameState w inp = some w1) :
    w1 = { w with game := { w.game with gameOver := true } } := by
  simp only [updateGameState, hover, htime] at hstep
  cases hd : determineWinner w.players w.store { w.game with gameOver := true } with
  | none => simp [hd] at hstep
  | some x =>
    simp [hd] at hstep
    exact hstep.symm

/-- Claim C3 fails on the code: in the sample match (not over, three towers each,
both players at 0 EXP) a tick at the moment the match duration has elapsed sets
`gameOver`, `determineWinner` yields `draw`, and the tick returns with both players
still at 0 EXP: `updateGameState` drops the result of `determineWinner` and never
calls `awardDrawEXP`, which would have given each player 10 EXP. -/
theorem updateGameState_timeout_draw_awards_nothing :
    sampleWorld.game.gameOver = false ∧
    finalTick.now - sampleWorld.game.StartTime ≥ gameDuration ∧
    slot1 sampleWorld = some alice ∧ slot2 sampleWorld = some bob ∧
    (sampleWorld.store.towersOf alice.Towers).length = (sampleWorld.store.towersOf bob.Towers).length ∧
    determineWinner sampleWorld.players sampleWorld.store
      { sampleWorld.game with gameOver := true } = some "draw" ∧
    updateGameState sampleWorld finalTick =
      some { sampleWorld with
        game := { Player1 := some 0, Player2 := some 1, StartTime := 0, gameOver := true } } ∧
    (updateGameState sampleWorld finalTick).map (fun w => (slot1 w, slot2 w)) =
      some (some alice, some bob) ∧
    alice.EXP = 0 ∧ bob.EXP = 0 ∧
    (awardDrawEXP sampleWorld.players sampleWorld.store sampleWorld.game).map (fun r =>
      r.1.map fun p => p.EXP) = some [10, 10] := by
  decide

/-- The two slots of a match of two players with different `Towers` slices point to
different records. -/
theorem slots_of_separate (w : World) (p1 p2 : Player) (h1 : slot1 w = some p1)
    (h2 : slot2 w = some p2) (hne : p1.Towers ≠ p2.Towers) :
    ∃ i j, w.game.Player1 = some i ∧ w.game.Player2 = some j ∧ i ≠ j ∧
      w.players[i]? = some p1 ∧ w.players[j]? = some p2 := by
  unfold slot1 deref at h1
  unfold slot2 deref at h2
  cases e1 : w.game.Player1 with
  | none => simp [e1] at h1
  | some i =>
    cases e2 : w.game.Player2 with
    | none => simp [e2] at h2
    | some j =>
      simp only [e1, Option.some_bind] at h1
      simp only [e2, Option.some_bind] at h2
      refine ⟨i, j, rfl, rfl, ?_, h1, h2⟩
      intro e
      subst e
      rw [h1] at h2
      cases h2
      exact hne rfl

/-- The test of the game-over check on a king tower after the combat block. -/
theorem hitTower_HP_le (k : Tower) (d : Int) : (hitTower k d).HP ≤ 0 ↔ wrap (k.HP - d) ≤ 0 := by
  simp only [hitTower]
  split_ifs with h
  · simp [h]
  · simp [h]

/-- A tick of a running match of two players whose `Towers` slices are different
arrays, each with a tower and a troop: the state after the tick, by which king tower
falls. `d1` and `d2` are the damages to the king towers of player 1 and player 2;
`q1` and `q2` are the records after mana regeneration and the EXP of a fallen tower;
`ps` are the player records and `s1` is the store after the combat block. -/
theorem updateGameState_separate (w : World) (inp : TickInput) (i j : Nat) (p1 p2 : Player)
    (k1 k2 : Tower) (r1 r2 : List Tower) (u1 u2 : Troop) (us1 us2 : List Troop)
    (hover : w.game.gameOver = false) (htime : inp.now - w.game.StartTime < gameDuration)
    (hP1 : w.game.Player1 = some i) (hP2 : w.game.Player2 = some j)
    (hi : w.players[i]? = some p1) (hj : w.players[j]? = some p2)
    (hne : p1.Towers ≠ p2.Towers)
    (ht1 : w.store.towersOf p1.Towers = k1 :: r1) (ht2 : w.store.towersOf p2.Towers = k2 :: r2)
    (hu1 : w.store.troopsOf p1.Troops = u1 :: us1) (hu2 : w.store.troopsOf p2.Troops = u2 :: us2)
    (d1 d2 : Int) (hd1 : d1 = calculateDamage (.troop u2) (.tower k1) k2.CRIT inp.randNum1)
    (hd2 : d2 = calculateDamage (.troop u1) (.tower k2) k1.CRIT inp.randNum2)
    (q1 q2 : Player)
    (hq1 : q1 = if wrap (k2.HP - d2) ≤ 0 then awardEXP (regenerateMana p1) k2.EXP
      else regenerateMana p1)
    (hq2 : q2 = if wrap (k1.HP - d1) ≤ 0 then awardEXP (regenerateMana p2) k1.EXP
      else regenerateMana p2) :
    ∃ ps s1, ps[i]? = some q1 ∧ ps[j]? = some q2 ∧
      s1.towersOf p1.Towers = hitTower k1 d1 :: r1 ∧
      s1.towersOf p2.Towers = hitTower k2 d2 :: r2 ∧
      updateGameState w inp = some
        (if wrap (k1.HP - d1) ≤ 0 then
          { players := ps.set j (awardWinEXP s1 q2).2.1
            store := (awardWinEXP s1 q2).1
            game := { w.game with gameOver := true }
            out := w.out ++ sendGameOverMessage q1 q2 q2.Username ++ (awardWinEXP s1 q2).2.2 }
        else if wrap (k2.HP - d2) ≤ 0 then
          { players := ps.set i (awardWinEXP s1 q1).2.1
            store := (awardWinEXP s1 q1).1
            game := { w.game with gameOver := true }
            out := w.out ++ sendGameOverMessage q1 q2 q1.Username ++ (awardWinEXP s1 q1).2.2 }
        else
          { players := ps
            store := s1
            game := w.game
            out := w.out ++ sendGameState s1 q1 q2 w.game.StartTime false inp.sendTime }) := by
  have hij : i ≠ j := by
    intro e
    subst e
    rw [hi] at hj
    cases hj
    exact hne rfl
  have hji : j ≠ i := fun e => hij e.symm
  have li := lt_length_of_getElem? _ _ _ hi
  have lj := lt_length_of_getElem? _ _ _ hj
  have hj0 : (w.players.set i (regenerateMana p1))[j]? = some p2 := by
    rw [List.getElem?_set_ne hij]; exact hj
  have hi1 : ((w.players.set i (regenerateMana p1)).set j (regenerateMana p2))[i]? =
      some (regenerateMana p1) := by
    rw [List.getElem?_set_ne hji, List.getElem?_set_self li]
  have hj1 : ((w.players.set i (regenerateMana p1)).set j (regenerateMana p2))[j]? =
      some (regenerateMana p2) := by
    rw [List.getElem?_set_self (by rw [List.length_set]; exact lj)]
  obtain ⟨ps, s1, hres, hpi, hpj, hs1, hs2⟩ := resolveCombat_separate
    ((w.players.set i (regenerateMana p1)).set j (regenerateMana p2)) w.store i j
    (regenerateMana p1) (regenerateMana p2) inp k1 k2 r1 r2 u1 u2 us1 us2 hi1 hj1 hne ht1 ht2 hu1 hu2
  rw [← hd2] at hpi
  rw [← hd1] at hpj
  rw [← hq1] at hpi
  rw [← hq2] at hpj
  rw [← hd1] at hs1
  rw [← hd2] at hs2
  have hs1b : s1.towersOf p1.Towers = hitTower k1 d1 :: r1 := hs1
  have hs2b : s1.towersOf p2.Towers = hitTower k2 d2 :: r2 := hs2
  have hq1T : q1.Towers = p1.Towers := by rw [hq1]; split <;> rfl
  have hq2T : q2.Towers = p2.Towers := by rw [hq2]; split <;> rfl
  have hnt : ¬ inp.now - w.game.StartTime ≥ gameDuration := by omega
  refine ⟨ps, s1, hpi, hpj, hs1b, hs2b, ?_⟩
  simp only [updateGameState, hover, hnt, hP1, hP2, hi, hj0, hres, hpi, hpj, hq1T, hq2T, hs1b,
    hs2b, Option.bind_eq_bind, Option.some_bind, List.getElem?_cons_zero, hitTower_HP_le,
    Bool.false_eq_true, if_false]
  by_cases c1 : wrap (k1.HP - d1) ≤ 0
  · simp only [c1, if_true]
  · by_cases c2 : wrap (k2.HP - d2) ≤ 0
    · simp only [c1, c2, if_true, if_false]
    · simp only [c1, c2, if_false]

/-- What `playable` says. -/
theorem playable_iff (w : World) :
    playable w = true ↔ ∃ p1 p2, slot1 w = some p1 ∧ slot2 w = some p2 ∧
      0 < (w.store.towersOf p1.Towers).length ∧ 0 < (w.store.towersOf p2.Towers).length ∧
      0 < (w.store.troopsOf p1.Troops).length ∧ 0 < (w.store.troopsOf p2.Troops).length := by
  unfold playable
  cases h1 : slot1 w with
  | none => simp
  | some p1 =>
    cases h2 : slot2 w with
    | none => simp
    | some p2 => simp [List.isEmpty_iff, List.length_pos, and_assoc]

/-- The winner's reward when both players have a tower and a troop: the statement
of claim C4 with the loadouts spelled out (`k1`, `k2` the king towers, `u1`, `u2`
the first troops before the tick). -/
theorem updateGameState_king_destroyed_of_loadouts (w : World) (inp : TickInput) (p1 p2 : Player)
    (k1 k2 : Tower) (r1 r2 : List Tower) (u1 u2 : Troop) (us1 us2 : List Troop)
    (hover : w.game.gameOver = false) (htime : inp.now - w.game.StartTime < gameDuration)
    (hp1 : slot1 w = some p1) (hp2 : slot2 w = some p2)
    (hne : p1.Towers ≠ p2.Towers)
    (ht1 : w.store.towersOf p1.Towers = k1 :: r1) (ht2 : w.store.towersOf p2.Towers = k2 :: r2)
    (hu1 : w.store.troopsOf p1.Troops = u1 :: us1) (hu2 : w.store.troopsOf p2.Troops = u2 :: us2) :
    ∃ w1 q1 q2 K1 K2, updateGameState w inp = some w1 ∧
      slot1 w1 = some q1 ∧ slot2 w1 = some q2 ∧
      kingTower w1.store q1 = some K1 ∧ kingTower w1.store q2 = some K2 ∧
      K1.EXP = k1.EXP ∧ K2.EXP = k2.EXP ∧
      (K1.HP = 0 → 0 < K2.HP →
        w1.game.gameOver = true ∧
        (∃ rest, w1.out = w.out ++ [Event.gameOverMessage p1.Conn p2.Username,
            Event.gameOverMessage p2.Conn p2.Username] ++ rest ∧
          ∀ c name, Event.gameOverMessage c name ∉ rest) ∧
        q2.EXP = wrap (p2.EXP + K1.EXP + 30) ∧ q1.EXP = p1.EXP) ∧
      (K2.HP = 0 → 0 < K1.HP →
        w1.game.gameOver = true ∧
        (∃ rest, w1.out = w.out ++ [Event.gameOverMessage p1.Conn p1.Username,
            Event.gameOverMessage p2.Conn p1.Username] ++ rest ∧
          ∀ c name, Event.gameOverMessage c name ∉ rest) ∧
        q1.EXP = wrap (p1.EXP + K2.EXP + 30) ∧ q2.EXP = p2.EXP) := by
  obtain ⟨i, j, hP1, hP2, hij, hi, hj⟩ := slots_of_separate w p1 p2 hp1 hp2 hne
  have hji : j ≠ i := fun e => hij e.symm
  obtain ⟨d1, hd1⟩ : ∃ d, d = calculateDamage (.troop u2) (.tower k1) k2.CRIT inp.randNum1 := ⟨_, rfl⟩
  obtain ⟨d2, hd2⟩ : ∃ d, d = calculateDamage (.troop u1) (.tower k2) k1.CRIT inp.randNum2 := ⟨_, rfl⟩
  obtain ⟨q1, hq1⟩ : ∃ q, q = if wrap (k2.HP - d2) ≤ 0 then awardEXP (regenerateMana p1) k2.EXP
      else regenerateMana p1 := ⟨_, rfl⟩
  obtain ⟨q2, hq2⟩ : ∃ q, q = if wrap (k1.HP - d1) ≤ 0 then awardEXP (regenerateMana p2) k1.EXP
      else regenerateMana p2 := ⟨_, rfl⟩
  obtain ⟨ps, s1, hpi, hpj, hs1, hs2, hstep⟩ := updateGameState_separate w inp i j p1 p2 k1 k2 r1 r2
    u1 u2 us1 us2 hover htime hP1 hP2 hi hj hne ht1 ht2 hu1 hu2 d1 d2 hd1 hd2 q1 q2 hq1 hq2
  have li := lt_length_of_getElem? _ _ _ hpi
  have lj := lt_length_of_getElem? _ _ _ hpj
  have hne2 : p2.Towers ≠ p1.Towers := fun e => hne e.symm
  have hq1T : q1.Towers = p1.Towers := by rw [hq1]; split <;> rfl
  have hq2T : q2.Towers = p2.Towers := by rw [hq2]; split <;> rfl
  have hq1C : q1.Conn = p1.Conn := by rw [hq1]; split <;> rfl
  have hq2C : q2.Conn = p2.Conn := by rw [hq2]; split <;> rfl
  have hq1U : q1.Username = p1.Username := by rw [hq1]; split <;> rfl
  have hq2U : q2.Username = p2.Username := by rw [hq2]; split <;> rfl
  have hH1 := hitTower_HP_le k1 d1
  have hH2 := hitTower_HP_le k2 d2
  have hN1 := hitTower_HP_nonneg k1 d1
  have hN2 := hitTower_HP_nonneg k2 d2
  by_cases c1 : wrap (k1.HP - d1) ≤ 0
  · rw [if_pos c1] at hstep
    have hq2E : q2.EXP = wrap (p2.EXP + k1.EXP) := by rw [hq2, if_pos c1]; rfl
    refine ⟨_, q1, (awardWinEXP s1 q2).2.1, hitTower k1 d1,
      (if wrap (q2.EXP + 30) ≥ wrap (100 + wrap (q2.Level * 10))
        then levelUpTower (hitTower k2 d2) else hitTower k2 d2),
      hstep, ?_, ?_, ?_, ?_, rfl, ?_, ?_, ?_⟩
    · simp [slot1, deref, hP1, List.getElem?_set, hji, hpi]
    · simp [slot2, deref, hP2, List.getElem?_set, lj]
    · simp [kingTower, towersOf_awardWinEXP, hq1T, hq2T, hne, hs1]
    · by_cases lv : wrap (q2.EXP + 30) ≥ wrap (100 + wrap (q2.Level * 10)) <;>
        simp [kingTower, towersOf_awardWinEXP, awardWinEXP_player, hq2T, hs2, lv]
    · split <;> rfl
    · intro _ hpos
      have c2 : ¬ wrap (k2.HP - d2) ≤ 0 := by
        intro c2
        have z : (hitTower k2 d2).HP = 0 := by
          have := hH2.2 c2
          omega
        have z2 : (levelUpTower (hitTower k2 d2)).HP = 0 := by
          simp [levelUpTower, z, float64Scale_zero]
        split at hpos <;> omega
      refine ⟨rfl, ⟨(awardWinEXP s1 q2).2.2, ?_, fun c name => awardWinEXP_out s1 q2 c name⟩, ?_, ?_⟩
      · simp [sendGameOverMessage, hq1C, hq2C, hq2U]
      · rw [awardWinEXP_player]
        show wrap (q2.EXP + 30) = _
        rw [hq2E, wrap_add_wrap]
        rfl
      · rw [hq1, if_neg c2]; rfl
    · intro hz hpos
      have := hH1.2 c1
      omega
  · rw [if_neg c1] at hstep
    have hq2E : q2 = regenerateMana p2 := by rw [hq2, if_neg c1]
    have pos1 : 0 < (hitTower k1 d1).HP := by
      have : ¬ (hitTower k1 d1).HP ≤ 0 := fun h => c1 (hH1.1 h)
      omega
    by_cases c2 : wrap (k2.HP - d2) ≤ 0
    · rw [if_pos c2] at hstep
      have hq1E : q1.EXP = wrap (p1.EXP + k2.EXP) := by rw [hq1, if_pos c2]; rfl
      have z2 : (hitTower k2 d2).HP = 0 := by
        have := hH2.2 c2
        omega
      refine ⟨_, (awardWinEXP s1 q1).2.1, q2,
        (if wrap (q1.EXP + 30) ≥ wrap (100 + wrap (q1.Level * 10))
          then levelUpTower (hitTower k1 d1) else hitTower k1 d1),
        hitTower k2 d2, hstep, ?_, ?_, ?_, ?_, ?_, rfl, ?_, ?_⟩
      · simp [slot1, deref, hP1, List.getElem?_set, li]
      · simp [slot2, deref, hP2, List.getElem?_set, hij, hpj]
      · by_cases lv : wrap (q1.EXP + 30) ≥ wrap (100 + wrap (q1.Level * 10)) <;>
          simp [kingTower, towersOf_awardWinEXP, awardWinEXP_player, hq1T, hs1, lv]
      · simp [kingTower, towersOf_awardWinEXP, hq1T, hq2T, hne2, hs2]
      · split <;> rfl
      · intro _ hpos
        omega
      · intro _ _
        refine ⟨rfl, ⟨(awardWinEXP s1 q1).2.2, ?_, fun c name => awardWinEXP_out s1 q1 c name⟩, ?_, ?_⟩
        · simp [sendGameOverMessage, hq1C, hq2C, hq1U]
        · rw [awardWinEXP_player]
          show wrap (q1.EXP + 30) = _
          rw [hq1E, wrap_add_wrap]
          rfl
        · rw [hq2E]; rfl
    · rw [if_neg c2] at hstep
      have pos2 : 0 < (hitTower k2 d2).HP := by
        have : ¬ (hitTower k2 d2).HP ≤ 0 := fun h => c2 (hH2.1 h)
        omega
      refine ⟨_, q1, q2, hitTower k1 d1, hitTower k2 d2, hstep, ?_, ?_, ?_, ?_, rfl, rfl, ?_, ?_⟩
      · simp [slot1, deref, hP1, hpi]
      · simp [slot2, deref, hP2, hpj]
      · simp [kingTower, hq1T, hs1]
      · simp [kingTower, hq2T, hs2]
      · intro hz _; omega
      · intro hz _; omega

/-- The damage statements panic when a player has no troop. -/
theorem damageFirstTowers_none (s : Store) (towers1 troops1 towers2 troops2 : Nat)
    (inp : TickInput) (h : s.troopsOf troops1 = [] ∨ s.troopsOf troops2 = []) :
    damageFirstTowers s towers1 troops1 towers2 troops2 inp = none := by
  unfold damageFirstTowers
  cases e2 : (s.troopsOf troops2)[0]? with
  | none => rfl
  | some troop2 =>
    have h1 : s.troopsOf troops1 = [] := by
      rcases h with h | h
      · exact h
      · rw [h] at e2; simp at e2
    cases e3 : (s.towersOf towers1)[0]? with
    | none => rfl
    | some tower1 =>
      cases e4 : (s.towersOf towers2)[0]? with
      | none => rfl
      | some tower2 =>
        simp only [Option.bind_eq_bind, Option.some_bind, troopsOf_setTower, h1,
          List.getElem?_nil, Option.none_bind]

/-- The combat block panics when both players have a tower and one has no troop. -/
theorem resolveCombat_none (players : List Player) (s : Store) (i j : Nat) (inp : TickInput)
    (a b : Player) (hi : players[i]? = some a) (hj : players[j]? = some b)
    (h1 : 0 < (s.towersOf a.Towers).length) (h2 : 0 < (s.towersOf b.Towers).length)
    (h : s.troopsOf a.Troops = [] ∨ s.troopsOf b.Troops = []) :
    resolveCombat players s i j inp = none := by
  unfold resolveCombat
  simp only [hi, hj, Option.bind_eq_bind, Option.some_bind, gt_iff_lt, h1, h2, and_self, if_true,
    damageFirstTowers_none s a.Towers a.Troops b.Towers b.Troops inp h, Option.none_bind]

/-- A tick of a running match returns no state in which both players have a king
tower unless both players had a tower and a troop before it. -/
theorem loadouts_of_updateGameState (w w1 : World) (inp : TickInput) (p1 p2 q1 q2 : Player)
    (K1 K2 : Tower)
    (hover : w.game.gameOver = false) (htime : inp.now - w.game.StartTime < gameDuration)
    (hp1 : slot1 w = some p1) (hp2 : slot2 w = some p2) (hne : p1.Towers ≠ p2.Towers)
    (hstep : updateGameState w inp = some w1)
    (hq1 : slot1 w1 = some q1) (hq2 : slot2 w1 = some q2)
    (hK1 : kingTower w1.store q1 = some K1) (hK2 : kingTower w1.store q2 = some K2) :
    ∃ k1 r1 k2 r2 u1 us1 u2 us2,
      w.store.towersOf p1.Towers = k1 :: r1 ∧ w.store.towersOf p2.Towers = k2 :: r2 ∧
      w.store.troopsOf p1.Troops = u1 :: us1 ∧ w.store.troopsOf p2.Troops = u2 :: us2 := by
  obtain ⟨i, j, hP1, hP2, hij, hi, hj⟩ := slots_of_separate w p1 p2 hp1 hp2 hne
  have hji : j ≠ i := fun e => hij e.symm
  have li := lt_length_of_getElem? _ _ _ hi
  have lj := lt_length_of_getElem? _ _ _ hj
  have hj0 : (w.players.set i (regenerateMana p1))[j]? = some p2 := by
    rw [List.getElem?_set_ne hij]; exact hj
  have hi1 : ((w.players.set i (regenerateMana p1)).set j (regenerateMana p2))[i]? =
      some (regenerateMana p1) := by
    rw [List.getElem?_set_ne hji, List.getElem?_set_self li]
  have hj1 : ((w.players.set i (regenerateMana p1)).set j (regenerateMana p2))[j]? =
      some (regenerateMana p2) := by
    rw [List.getElem?_set_self (by rw [List.length_set]; exact lj)]
  have hnt : ¬ inp.now - w.game.StartTime ≥ gameDuration := by omega
  cases ht1 : w.store.towersOf p1.Towers with
  | nil =>
    exfalso
    have hT : w.store.towersOf (regenerateMana p1).Towers = [] := ht1
    simp [updateGameState, hover, hnt, hP1, hP2, hi, hj0, resolveCombat, hi1, hj1, hT] at hstep
  | cons k1 r1 =>
    have hT1 : w.store.towersOf (regenerateMana p1).Towers = k1 :: r1 := ht1
    cases ht2 : w.store.towersOf p2.Towers with
    | nil =>
      exfalso
      have hT2 : w.store.towersOf (regenerateMana p2).Towers = [] := ht2
      simp only [updateGameState, hover, hnt, hP1, hP2, hi, hj0, resolveCombat, hi1, hj1, hT1, hT2,
        Option.bind_eq_bind, Option.some_bind, List.length_nil, gt_iff_lt, lt_self_iff_false,
        and_false, if_false, List.getElem?_cons_zero, Bool.false_eq_true] at hstep
      by_cases c1 : k1.HP ≤ 0
      · simp only [c1, if_true, Option.some.injEq] at hstep
        subst hstep
        simp only [slot2, deref, hP2, Option.some_bind,
          List.getElem?_set_self (show j < ((w.players.set i (regenerateMana p1)).set j
            (regenerateMana p2)).length by rw [List.length_set, List.length_set]; exact lj),
          Option.some.injEq] at hq2
        subst hq2
        simp [kingTower, towersOf_awardWinEXP, awardWinEXP_player, hT2] at hK2
      · simp [c1, hT2] at hstep
    | cons k2 r2 =>
      have hT2 : w.store.towersOf (regenerateMana p2).Towers = k2 :: r2 := ht2
      cases hu2 : w.store.troopsOf p2.Troops with
      | nil =>
        exfalso
        have hU2 : w.store.troopsOf (regenerateMana p2).Troops = [] := hu2
        have hres := resolveCombat_none _ w.store i j inp _ _ hi1 hj1
          (by rw [hT1]; simp) (by rw [hT2]; simp) (Or.inr hU2)
        simp only [updateGameState, hover, hnt, hP1, hP2, hi, hj0, hres, Option.bind_eq_bind,
          Option.some_bind, Option.none_bind, Bool.false_eq_true, if_false] at hstep
        cases hstep
      | cons u2 us2 =>
        have hU2 : w.store.troopsOf (regenerateMana p2).Troops = u2 :: us2 := hu2
        cases hu1 : w.store.troopsOf p1.Troops with
        | nil =>
          exfalso
          have hU1 : w.store.troopsOf (regenerateMana p1).Troops = [] := hu1
          have hres := resolveCombat_none _ w.store i j inp _ _ hi1 hj1
            (by rw [hT1]; simp) (by rw [hT2]; simp) (Or.inl hU1)
          simp only [updateGameState, hover, hnt, hP1, hP2, hi, hj0, hres, Option.bind_eq_bind,
            Option.some_bind, Option.none_bind, Bool.false_eq_true, if_false] at hstep
          cases hstep
        | cons u1 us1 => exact ⟨k1, r1, k2, r2, u1, us1, u2, us2, rfl, rfl, rfl, rfl⟩

/-- Claim C4, as stated, fails: in the match in which `alice`'s king tower (EXP reward
50) has 10 hit points left and `bob` has `9223372036854775747` EXP (separate loadouts,
not over, not timed out), the tick brings `alice`'s king tower to 0 while `bob`'s
king tower keeps positive hit points, and `bob`'s EXP, which would have grown by
`50 + 30`, wraps around to `-9223372036854775789`. -/
theorem updateGameState_king_destroyed_counterexample :
    (matchOf alice (samplePlayer "bob" 1 2 9223372036854775747 5) 10).game.gameOver = false ∧
    sampleTick.now - (matchOf alice (samplePlayer "bob" 1 2 9223372036854775747 5) 10).game.StartTime
      < gameDuration ∧
    slot1 (matchOf alice (samplePlayer "bob" 1 2 9223372036854775747 5) 10) = some alice ∧
    slot2 (matchOf alice (samplePlayer "bob" 1 2 9223372036854775747 5) 10) =
      some (samplePlayer "bob" 1 2 9223372036854775747 5) ∧
    alice.Towers ≠ (samplePlayer "bob" 1 2 9223372036854775747 5).Towers ∧
    alice.Troops ≠ (samplePlayer "bob" 1 2 9223372036854775747 5).Troops ∧
    kingHP1 (updateGameState (matchOf alice (samplePlayer "bob" 1 2 9223372036854775747 5) 10)
      sampleTick) = some 0 ∧
    kingHP2 (updateGameState (matchOf alice (samplePlayer "bob" 1 2 9223372036854775747 5) 10)
      sampleTick) = some 80 ∧
    (updateGameState (matchOf alice (samplePlayer "bob" 1 2 9223372036854775747 5) 10)
      sampleTick).bind (fun w => (slot1 w).bind fun p => (kingTower w.store p).map fun k => k.EXP) =
      some 50 ∧
    (updateGameState (matchOf alice (samplePlayer "bob" 1 2 9223372036854775747 5) 10)
      sampleTick).bind (fun w => (slot2 w).map fun p => p.EXP) = some (-9223372036854775789) ∧
    (9223372036854775747 : Int) + 50 + 30 ≠ -9223372036854775789 := by
  decide

/-- Claim C4, amended: in a running, not timed-out match of two players whose `Towers`
slices are different arrays, whenever the tick returns a state in which the king
tower of one player has 0 hit points while the king tower of the other has positive
hit points, the match is over, both connections are told that the other player is
the winner (and no other winner is announced), the loser's EXP is unchanged, and,
provided the sum of the winner's EXP, the fallen king tower's EXP and 30 is within
the range of `int` (from `minInt` to `maxInt`), the winner's EXP has grown by the
fallen king tower's EXP plus 30 (`K1`, `K2` are the king towers and `q1`, `q2` the
players after the tick); and when each player has a tower and a troop the tick does
return a state with two king towers. -/
theorem updateGameState_king_destroyed (w : World) (inp : TickInput) (p1 p2 : Player)
    (hover : w.game.gameOver = false) (htime : inp.now - w.game.StartTime < gameDuration)
    (hp1 : slot1 w = some p1) (hp2 : slot2 w = some p2)
    (hne : p1.Towers ≠ p2.Towers) :
    (∀ w1 q1 q2 K1 K2, updateGameState w inp = some w1 →
      slot1 w1 = some q1 → slot2 w1 = some q2 →
      kingTower w1.store q1 = some K1 → kingTower w1.store q2 = some K2 →
      (K1.HP = 0 → 0 < K2.HP →
        w1.game.gameOver = true ∧
        (∃ rest, w1.out = w.out ++ [Event.gameOverMessage p1.Conn p2.Username,
            Event.gameOverMessage p2.Conn p2.Username] ++ rest ∧
          ∀ c name, Event.gameOverMessage c name ∉ rest) ∧
        (minInt ≤ p2.EXP + K1.EXP + 30 → p2.EXP + K1.EXP + 30 ≤ maxInt →
          q2.EXP = p2.EXP + K1.EXP + 30) ∧
        q1.EXP = p1.EXP) ∧
      (K2.HP = 0 → 0 < K1.HP →
        w1.game.gameOver = true ∧
        (∃ rest, w1.out = w.out ++ [Event.gameOverMessage p1.Conn p1.Username,
            Event.gameOverMessage p2.Conn p1.Username] ++ rest ∧
          ∀ c name, Event.gameOverMessage c name ∉ rest) ∧
        (minInt ≤ p1.EXP + K2.EXP + 30 → p1.EXP + K2.EXP + 30 ≤ maxInt →
          q1.EXP = p1.EXP + K2.EXP + 30) ∧
        q2.EXP = p2.EXP)) ∧
    (playable w = true → ∃ w1 q1 q2 K1 K2, updateGameState w inp = some w1 ∧
      slot1 w1 = some q1 ∧ slot2 w1 = some q2 ∧
      kingTower w1.store q1 = some K1 ∧ kingTower w1.store q2 = some K2) := by
  constructor
  · intro w1 q1 q2 K1 K2 hstep hq1 hq2 hK1 hK2
    obtain ⟨k1, r1, k2, r2, u1, us1, u2, us2, ht1, ht2, hu1, hu2⟩ :=
      loadouts_of_updateGameState w w1 inp p1 p2 q1 q2 K1 K2 hover htime hp1 hp2 hne hstep hq1 hq2
        hK1 hK2
    obtain ⟨w1b, q1b, q2b, K1b, K2b, hstepb, hq1b, hq2b, hK1b, hK2b, -, -, hA, hB⟩ :=
      updateGameState_king_destroyed_of_loadouts w inp p1 p2 k1 k2 r1 r2 u1 u2 us1 us2
        hover htime hp1 hp2 hne ht1 ht2 hu1 hu2
    rw [hstep] at hstepb
    cases hstepb
    rw [hq1] at hq1b
    cases hq1b
    rw [hq2] at hq2b
    cases hq2b
    rw [hK1] at hK1b
    cases hK1b
    rw [hK2] at hK2b
    cases hK2b
    constructor
    · intro hz hpos
      obtain ⟨a, b, c, d⟩ := hA hz hpos
      exact ⟨a, b, fun hlo hhi => by rw [c, wrap_of_inRange _ hlo hhi], d⟩
    · intro hz hpos
      obtain ⟨a, b, c, d⟩ := hB hz hpos
      exact ⟨a, b, fun hlo hhi => by rw [c, wrap_of_inRange _ hlo hhi], d⟩
  · intro hplay
    obtain ⟨p1b, p2b, hp1b, hp2b, a1, a2, b1, b2⟩ := (playable_iff w).1 hplay
    rw [hp1] at hp1b
    cases hp1b
    rw [hp2] at hp2b
    cases hp2b
    obtain ⟨k1, r1, ht1⟩ := List.exists_cons_of_length_pos a1
    obtain ⟨k2, r2, ht2⟩ := List.exists_cons_of_length_pos a2
    obtain ⟨u1, us1, hu1⟩ := List.exists_cons_of_length_pos b1
    obtain ⟨u2, us2, hu2⟩ := List.exists_cons_of_length_pos b2
    obtain ⟨w1, q1, q2, K1, K2, hstep, hq1, hq2, hK1, hK2, -⟩ :=
      updateGameState_king_destroyed_of_loadouts w inp p1 p2 k1 k2 r1 r2 u1 u2 us1 us2
        hover htime hp1 hp2 hne ht1 ht2 hu1 hu2
    exact ⟨w1, q1, q2, K1, K2, hstep, hq1, hq2, hK1, hK2⟩

/-- The amended claim C4 at the match in which `alice`'s king tower has 10 hit points
left and `bob` has 40 EXP: after the tick `alice`'s king tower has 0 hit points and
`bob`'s has 88, the match is over and `bob` has 40 + 50 + 30 EXP. -/
theorem updateGameState_king_destroyed_witness :
    ∃ w1 q1 q2 K1 K2, updateGameState finishingWorld sampleTick = some w1 ∧
      slot1 w1 = some q1 ∧ slot2 w1 = some q2 ∧
      kingTower w1.store q1 = some K1 ∧ kingTower w1.store q2 = some K2 ∧
      K1.HP = 0 ∧ K2.HP = 88 ∧ w1.game.gameOver = true ∧ q2.EXP = 40 + 50 + 30 ∧ q1.EXP = 0 := by
  obtain ⟨hall, hex⟩ := updateGameState_king_destroyed finishingWorld sampleTick alice
    (samplePlayer "bob" 1 2 40 5) rfl (by decide) rfl rfl (by decide)
  obtain ⟨w1, q1, q2, K1, K2, hstep, hq1, hq2, hK1, hK2⟩ := hex (by decide)
  have e1 : kingHP1 (updateGameState finishingWorld sampleTick) = some 0 := by decide
  have e2 : kingHP2 (updateGameState finishingWorld sampleTick) = some 88 := by decide
  have e3 : (updateGameState finishingWorld sampleTick).bind
      (fun w => (slot1 w).bind fun p => (kingTower w.store p).map fun k => k.EXP) = some 50 := by
    decide
  simp only [kingHP1, hstep, hq1, hK1, Option.some_bind, Option.map_some', Option.some.injEq] at e1
  simp only [kingHP2, hstep, hq2, hK2, Option.some_bind, Option.map_some', Option.some.injEq] at e2
  simp only [hstep, hq1, hK1, Option.some_bind, Option.map_some', Option.some.injEq] at e3
  obtain ⟨hover, -, hx2, hx1⟩ := (hall w1 q1 q2 K1 K2 hstep hq1 hq2 hK1 hK2).1 e1 (by omega)
  refine ⟨w1, q1, q2, K1, K2, hstep, hq1, hq2, hK1, hK2, e1, e2, hover, ?_, hx1⟩
  rw [hx2 (by rw [e3]; decide) (by rw [e3]; decide), e3]
  rfl

/-- What `small` says. -/
theorem small_iff (x : Int) : small x ↔ -281474976710656 < x ∧ x < 281474976710656 := by
  unfold small
  have p48 : (2 : Nat) ^ 48 = 281474976710656 := by norm_num
  rw [p48]
  omega

/-- Claim C5, as stated, fails: in the match in which `alice`'s king tower has 10
hit points left and `bob` has 40 EXP (separate loadouts, crit chance 0, king towers
with defense 10, first troops with attack 30), the tick ends the match, `bob`
reaches 120 EXP and levels up, and his king tower, at 100 hit points before the
tick, has 88 after it (`int(float64(80) * 1.1)`), not
`max(0, 100 - max(0, 30 - 10)) = 80`. -/
theorem updateGameState_king_hp_counterexample :
    finishingWorld.game.gameOver = false ∧
    sampleTick.now - finishingWorld.game.StartTime < gameDuration ∧
    slot1 finishingWorld = some alice ∧
    slot2 finishingWorld = some (samplePlayer "bob" 1 2 40 5) ∧
    alice.Towers ≠ (samplePlayer "bob" 1 2 40 5).Towers ∧
    alice.Troops ≠ (samplePlayer "bob" 1 2 40 5).Troops ∧
    kingTower finishingWorld.store (samplePlayer "bob" 1 2 40 5) = some (sampleKing 100 10 50) ∧
    kingTower finishingWorld.store alice = some (sampleKing 10 10 50) ∧
    (sampleKing 100 10 50).CRIT = 0 ∧ (sampleKing 10 10 50).CRIT = 0 ∧
    (finishingWorld.store.troopsOf alice.Troops)[0]? = some (sampleTroop "Pawn" 30 3) ∧
    (finishingWorld.store.troopsOf (samplePlayer "bob" 1 2 40 5).Troops)[0]? =
      some (sampleTroop "Pawn" 30 3) ∧
    kingHP2 (updateGameState finishingWorld sampleTick) = some 88 ∧
    specKingHP 100 30 10 = 80 ∧
    float64Scale 80 mant11 = 88 := by
  decide

/-- Claim C5, amended: in a running, not timed-out match of two players whose
`Towers` slices are different arrays, each with a tower and a troop, both king
towers with crit chance 0, where the king towers' HP, DEF and EXP, the first troops'
ATK and the players' EXP and level are all below `2^48` in magnitude (so that nothing
wraps around and the binary64 products are exact up to the fraction), one tick
returns a state in which each king tower has
`h = max(0, oldHP - max(0, ATK - DEF))` hit points (`ATK` of the opponent's first
troop, `DEF` of the king tower), except that the king tower of a player who wins the
match on this tick and whose EXP then reaches `100 + Level*10` has `h * 1.1`
truncated. Player 2 wins when player 1's `h` is 0; player 1 wins when player 2's `h`
is 0 and his own is positive. -/
theorem updateGameState_king_hp (w : World) (inp : TickInput) (p1 p2 : Player)
    (k1 k2 : Tower) (r1 r2 : List Tower) (u1 u2 : Troop) (us1 us2 : List Troop)
    (hover : w.game.gameOver = false) (htime : inp.now - w.game.StartTime < gameDuration)
    (hp1 : slot1 w = some p1) (hp2 : slot2 w = some p2)
    (hne : p1.Towers ≠ p2.Towers)
    (ht1 : w.store.towersOf p1.Towers = k1 :: r1) (ht2 : w.store.towersOf p2.Towers = k2 :: r2)
    (hu1 : w.store.troopsOf p1.Troops = u1 :: us1) (hu2 : w.store.troopsOf p2.Troops = u2 :: us2)
    (hc1 : k1.CRIT = 0) (hc2 : k2.CRIT = 0)
    (hsmall1 : small k1.HP ∧ small k1.DEF ∧ small k1.EXP ∧ small u1.ATK ∧ small p1.EXP ∧
      small p1.Level)
    (hsmall2 : small k2.HP ∧ small k2.DEF ∧ small k2.EXP ∧ small u2.ATK ∧ small p2.EXP ∧
      small p2.Level) :
    ∃ w1 q1 q2 K1 K2, updateGameState w inp = some w1 ∧
      slot1 w1 = some q1 ∧ slot2 w1 = some q2 ∧
      kingTower w1.store q1 = some K1 ∧ kingTower w1.store q2 = some K2 ∧
      K1.HP =
        (if 0 < specKingHP k1.HP u2.ATK k1.DEF ∧ specKingHP k2.HP u1.ATK k2.DEF = 0 ∧
            p1.EXP + k2.EXP + 30 ≥ 100 + p1.Level * 10
          then Int.tdiv (specKingHP k1.HP u2.ATK k1.DEF * 11) 10
          else specKingHP k1.HP u2.ATK k1.DEF) ∧
      K2.HP =
        (if specKingHP k1.HP u2.ATK k1.DEF = 0 ∧ p2.EXP + k1.EXP + 30 ≥ 100 + p2.Level * 10
          then Int.tdiv (specKingHP k2.HP u1.ATK k2.DEF * 11) 10
          else specKingHP k2.HP u1.ATK k2.DEF) := by
  obtain ⟨a1, a2, a3, a4, a5, a6⟩ := hsmall1
  obtain ⟨b1, b2, b3, b4, b5, b6⟩ := hsmall2
  rw [small_iff] at a1 a2 a3 a4 a5 a6 b1 b2 b3 b4 b5 b6
  obtain ⟨i, j, hP1, hP2, hij, hi, hj⟩ := slots_of_separate w p1 p2 hp1 hp2 hne
  have hji : j ≠ i := fun e => hij e.symm
  obtain ⟨d1, hd1⟩ : ∃ d, d = calculateDamage (.troop u2) (.tower k1) k2.CRIT inp.randNum1 := ⟨_, rfl⟩
  obtain ⟨d2, hd2⟩ : ∃ d, d = calculateDamage (.troop u1) (.tower k2) k1.CRIT inp.randNum2 := ⟨_, rfl⟩
  obtain ⟨q1, hq1⟩ : ∃ q, q = if wrap (k2.HP - d2) ≤ 0 then awardEXP (regenerateMana p1) k2.EXP
      else regenerateMana p1 := ⟨_, rfl⟩
  obtain ⟨q2, hq2⟩ : ∃ q, q = if wrap (k1.HP - d1) ≤ 0 then awardEXP (regenerateMana p2) k1.EXP
      else regenerateMana p2 := ⟨_, rfl⟩
  obtain ⟨ps, s1, hpi, hpj, hs1, hs2, hstep⟩ := updateGameState_separate w inp i j p1 p2 k1 k2 r1 r2
    u1 u2 us1 us2 hover htime hP1 hP2 hi hj hne ht1 ht2 hu1 hu2 d1 d2 hd1 hd2 q1 q2 hq1 hq2
  have li := lt_length_of_getElem? _ _ _ hpi
  have lj := lt_length_of_getElem? _ _ _ hpj
  have hne2 : p2.Towers ≠ p1.Towers := fun e => hne e.symm
  have hq1T : q1.Towers = p1.Towers := by rw [hq1]; split <;> rfl
  have hq2T : q2.Towers = p2.Towers := by rw [hq2]; split <;> rfl
  have hq1L : q1.Level = p1.Level := by rw [hq1]; split <;> rfl
  have hq2L : q2.Level = p2.Level := by rw [hq2]; split <;> rfl
  -- the damages and the hit points, without wrap-around
  have ed1 : d1 = max 0 (u2.ATK - k1.DEF) := by
    rw [hd1, hc2]
    exact calculateDamage_no_crit u2 k1 _ (by unfold minInt; omega) (by unfold maxInt; omega)
  have ed2 : d2 = max 0 (u1.ATK - k2.DEF) := by
    rw [hd2, hc1]
    exact calculateDamage_no_crit u1 k2 _ (by unfold minInt; omega) (by unfold maxInt; omega)
  have w1 : wrap (k1.HP - d1) = k1.HP - d1 :=
    wrap_of_inRange _ (by unfold minInt; omega) (by unfold maxInt; omega)
  have w2 : wrap (k2.HP - d2) = k2.HP - d2 :=
    wrap_of_inRange _ (by unfold minInt; omega) (by unfold maxInt; omega)
  have hH1 : (hitTower k1 d1).HP = max 0 (k1.HP - d1) :=
    hitTower_HP k1 d1 (by unfold minInt; omega) (by unfold maxInt; omega)
  have hH2 : (hitTower k2 d2).HP = max 0 (k2.HP - d2) :=
    hitTower_HP k2 d2 (by unfold minInt; omega) (by unfold maxInt; omega)
  have e1 : specKingHP k1.HP u2.ATK k1.DEF = max 0 (k1.HP - d1) := by rw [ed1]; rfl
  have e2 : specKingHP k2.HP u1.ATK k2.DEF = max 0 (k2.HP - d2) := by rw [ed2]; rfl
  have f1 : float64Scale (max 0 (k1.HP - d1)) mant11 = Int.tdiv (max 0 (k1.HP - d1) * 11) 10 :=
    (float64Scale_eq_tdiv _ (by
      have p48 : (2 : Nat) ^ 48 = 281474976710656 := by norm_num
      rw [p48]; omega)).2
  have f2 : float64Scale (max 0 (k2.HP - d2)) mant11 = Int.tdiv (max 0 (k2.HP - d2) * 11) 10 :=
    (float64Scale_eq_tdiv _ (by
      have p48 : (2 : Nat) ^ 48 = 281474976710656 := by norm_num
      rw [p48]; omega)).2
  -- the thresholds, without wrap-around
  have t1 : wrap (100 + wrap (p1.Level * 10)) = 100 + p1.Level * 10 :=
    (levelThreshold_inRange p1.Level (by unfold minInt; omega) (by unfold maxInt; omega)).1
  have t2 : wrap (100 + wrap (p2.Level * 10)) = 100 + p2.Level * 10 :=
    (levelThreshold_inRange p2.Level (by unfold minInt; omega) (by unfold maxInt; omega)).1
  have x1 : wrap (wrap (p1.EXP + k2.EXP) + 30) = p1.EXP + k2.EXP + 30 := by
    rw [wrap_add_wrap]
    exact wrap_of_inRange _ (by unfold minInt; omega) (by unfold maxInt; omega)
  have x2 : wrap (wrap (p2.EXP + k1.EXP) + 30) = p2.EXP + k1.EXP + 30 := by
    rw [wrap_add_wrap]
    exact wrap_of_inRange _ (by unfold minInt; omega) (by unfold maxInt; omega)
  rw [e1, e2]
  rw [w1] at hstep hq2
  rw [w2] at hstep hq1
  by_cases c1 : k1.HP - d1 ≤ 0
  · rw [if_pos c1] at hstep
    have hq2E : q2.EXP = wrap (p2.EXP + k1.EXP) := by rw [hq2, if_pos c1]; rfl
    have m1 : max 0 (k1.HP - d1) = 0 := by omega
    refine ⟨_, q1, (awardWinEXP s1 q2).2.1, hitTower k1 d1,
      (if wrap (q2.EXP + 30) ≥ wrap (100 + wrap (q2.Level * 10))
        then levelUpTower (hitTower k2 d2) else hitTower k2 d2),
      hstep, ?_, ?_, ?_, ?_, ?_, ?_⟩
    · simp [slot1, deref, hP1, List.getElem?_set, hji, hpi]
    · simp [slot2, deref, hP2, List.getElem?_set, lj]
    · simp [kingTower, towersOf_awardWinEXP, hq1T, hq2T, hne, hs1]
    · by_cases lv : wrap (q2.EXP + 30) ≥ wrap (100 + wrap (q2.Level * 10)) <;>
        simp [kingTower, towersOf_awardWinEXP, awardWinEXP_player, hq2T, hs2, lv]
    · rw [hH1, m1]; simp
    · rw [hq2E, hq2L, x2, t2, m1]
      by_cases lv : p2.EXP + k1.EXP + 30 ≥ 100 + p2.Level * 10
      · simp [lv, levelUpTower, hH2, f2]
      · simp [lv, hH2]
  · rw [if_neg c1] at hstep
    have m1 : max 0 (k1.HP - d1) = k1.HP - d1 := by omega
    have hq2E : q2 = regenerateMana p2 := by rw [hq2, if_neg c1]
    by_cases c2 : k2.HP - d2 ≤ 0
    · rw [if_pos c2] at hstep
      have hq1E : q1.EXP = wrap (p1.EXP + k2.EXP) := by rw [hq1, if_pos c2]; rfl
      have m2 : max 0 (k2.HP - d2) = 0 := by omega
      refine ⟨_, (awardWinEXP s1 q1).2.1, q2,
        (if wrap (q1.EXP + 30) ≥ wrap (100 + wrap (q1.Level * 10))
          then levelUpTower (hitTower k1 d1) else hitTower k1 d1),
        hitTower k2 d2, hstep, ?_, ?_, ?_, ?_, ?_, ?_⟩
      · simp [slot1, deref, hP1, List.getElem?_set, li]
      · simp [slot2, deref, hP2, List.getElem?_set, hij, hpj]
      · by_cases lv : wrap (q1.EXP + 30) ≥ wrap (100 + wrap (q1.Level * 10)) <;>
          simp [kingTower, towersOf_awardWinEXP, awardWinEXP_player, hq1T, hs1, lv]
      · simp [kingTower, towersOf_awardWinEXP, hq1T, hq2T, hne2, hs2]
      · rw [hq1E, hq1L, x1, t1, m2]
        by_cases lv : p1.EXP + k2.EXP + 30 ≥ 100 + p1.Level * 10
        · have pos : 0 < max 0 (k1.HP - d1) := by omega
          simp [lv, pos, levelUpTower, hH1, f1]
        · simp [lv, hH1]
      · rw [hH2, m2]
        have : ¬ max 0 (k1.HP - d1) = 0 := by omega
        simp [this]
    · rw [if_neg c2] at hstep
      have n1 : ¬ max 0 (k1.HP - d1) = 0 := by omega
      have n2 : ¬ max 0 (k2.HP - d2) = 0 := by omega
      refine ⟨_, q1, q2, hitTower k1 d1, hitTower k2 d2, hstep, ?_, ?_, ?_, ?_, ?_, ?_⟩
      · simp [slot1, deref, hP1, hpi]
      · simp [slot2, deref, hP2, hpj]
      · simp [kingTower, hq1T, hs1]
      · simp [kingTower, hq2T, hs2]
      · simp [hH1, n2]
      · simp [hH2, n1]

/-- The amended claim C5 at the sample match: king towers with 100 hit points and
defense 10 against troops with attack 30 have 80 hit points after one tick. -/
theorem updateGameState_king_hp_witness :
    ∃ w1 q1 q2 K1 K2, updateGameState sampleWorld sampleTick = some w1 ∧
      slot1 w1 = some q1 ∧ slot2 w1 = some q2 ∧
      kingTower w1.store q1 = some K1 ∧ kingTower w1.store q2 = some K2 ∧
      K1.HP = 80 ∧ K2.HP = 80 := by
  obtain ⟨w1, q1, q2, K1, K2, hstep, hq1, hq2, hK1, hK2, h1, h2⟩ :=
    updateGameState_king_hp sampleWorld sampleTick alice bob
      (sampleKing 100 10 50) (sampleKing 100 10 50) [sampleKing 60 5 20, sampleKing 60 5 20]
      [sampleKing 60 5 20, sampleKing 60 5 20] (sampleTroop "Pawn" 30 3) (sampleTroop "Pawn" 30 3)
      [] [] rfl (by decide) rfl rfl (by decide) rfl rfl rfl rfl rfl rfl (by decide) (by decide)
  exact ⟨w1, q1, q2, K1, K2, hstep, hq1, hq2, hK1, hK2, h1.trans (by decide), h2.trans (by decide)⟩

/-! ## Mana -/

/-- The function `min` of `server.go` is the minimum. -/
theorem min_eq (a b : Int) : ClashRoyale.min a b = min a b := by
  unfold ClashRoyale.min
  split_ifs <;> omega

/-- A regenerated record has at most 10 mana. -/
theorem regenerateMana_le (p : Player) : (regenerateMana p).Mana ≤ 10 := by
  simp only [regenerateMana, min_eq]
  omega

/-- After the two regeneration statements the records the two pointers point to have
at most 10 mana. -/
theorem regenerated_le (players : List Player) (i j k : Nat) (p1 p2 a : Player)
    (hk : k = i ∨ k = j)
    (ha : ((players.set i (regenerateMana p1)).set j (regenerateMana p2))[k]? = some a) :
    a.Mana ≤ 10 := by
  rw [List.getElem?_set] at ha
  by_cases e : j = k
  · rw [if_pos e] at ha
    split at ha
    · cases ha; exact regenerateMana_le p2
    · cases ha
  · rw [if_neg e] at ha
    have e2 : k = i := by
      rcases hk with h | h
      · exact h
      · exact absurd h.symm e
    subst e2
    rw [List.getElem?_set] at ha
    simp only [if_true] at ha
    split at ha
    · cases ha; exact regenerateMana_le p1
    · cases ha

/-- The record after `awardWinEXP` differs from the record before in EXP and level
only. -/
theorem eraseProgress_awardWinEXP (s : Store) (p : Player) :
    eraseProgress (awardWinEXP s p).2.1 = eraseProgress p := by
  rw [awardWinEXP_player]
  rfl

/-- A tick that reaches the regeneration step and returns: the slots keep their
pointers, and the records after the tick are those after the two regeneration
statements up to EXP and level. -/
theorem updateGameState_cases (w w1 : World) (inp : TickInput)
    (hover : w.game.gameOver = false) (htime : inp.now - w.game.StartTime < gameDuration)
    (hstep : updateGameState w inp = some w1) :
    ∃ i j p1 p2, w.game.Player1 = some i ∧ w.game.Player2 = some j ∧
      w.players[i]? = some p1 ∧ (w.players.set i (regenerateMana p1))[j]? = some p2 ∧
      w1.game.Player1 = some i ∧ w1.game.Player2 = some j ∧
      w1.players.map eraseProgress =
        ((w.players.set i (regenerateMana p1)).set j (regenerateMana p2)).map eraseProgress := by
  have hnt : ¬ inp.now - w.game.StartTime ≥ gameDuration := by omega
  simp only [updateGameState, hover, hnt] at hstep
  cases hP1 : w.game.Player1 with
  | none => (simp only [hP1, Option.bind_eq_bind, Option.some_bind, Option.none_bind, Bool.false_eq_true, if_false] at hstep; exact Option.noConfusion hstep)
  | some i =>
    cases hi : w.players[i]? with
    | none => (simp only [hP1, hi, Option.bind_eq_bind, Option.some_bind, Option.none_bind, Bool.false_eq_true, if_false] at hstep; exact Option.noConfusion hstep)
    | some p1 =>
      cases hP2 : w.game.Player2 with
      | none => (simp only [hP1, hi, hP2, Option.bind_eq_bind, Option.some_bind, Option.none_bind, Bool.false_eq_true, if_false] at hstep; exact Option.noConfusion hstep)
      | some j =>
        cases hj : (w.players.set i (regenerateMana p1))[j]? with
        | none => (simp only [hP1, hi, hP2, hj, Option.bind_eq_bind, Option.some_bind, Option.none_bind, Bool.false_eq_true, if_false] at hstep; exact Option.noConfusion hstep)
        | some p2 =>
          cases hres : resolveCombat ((w.players.set i (regenerateMana p1)).set j
              (regenerateMana p2)) w.store i j inp with
          | none => (simp only [hP1, hi, hP2, hj, hres, Option.bind_eq_bind, Option.some_bind, Option.none_bind, Bool.false_eq_true, if_false] at hstep; exact Option.noConfusion hstep)
          | some r =>
            have hf := resolveCombat_frame _ _ _ _ _ _ hres
            obtain ⟨ps, s⟩ := r
            simp only at hf
            simp only [hP1, hi, hP2, hj, hres, Option.bind_eq_bind, Option.some_bind,
              Bool.false_eq_true, if_false] at hstep
            cases hq1 : ps[i]? with
            | none => (simp only [hq1, Option.bind_eq_bind, Option.some_bind, Option.none_bind, Bool.false_eq_true, if_false] at hstep; exact Option.noConfusion hstep)
            | some q1 =>
              cases hq2 : ps[j]? with
              | none => (simp only [hq1, hq2, Option.bind_eq_bind, Option.some_bind, Option.none_bind, Bool.false_eq_true, if_false] at hstep; exact Option.noConfusion hstep)
              | some q2 =>
                simp only [hq1, hq2, Option.some_bind] at hstep
                cases ht1 : (s.towersOf q1.Towers)[0]? with
                | none => (simp only [ht1, Option.bind_eq_bind, Option.some_bind, Option.none_bind, Bool.false_eq_true, if_false] at hstep; exact Option.noConfusion hstep)
                | some tower1 =>
                  simp only [ht1, Option.some_bind] at hstep
                  by_cases c1 : tower1.HP ≤ 0
                  · simp only [c1, if_true, Option.some.injEq] at hstep
                    subst hstep
                    refine ⟨i, j, p1, p2, rfl, rfl, hi, hj, rfl, rfl, ?_⟩
                    simp only
                    rw [map_eraseProgress_set ps j q2 _ hq2 (eraseProgress_awardWinEXP s q2), hf]
                  · simp only [c1, if_false] at hstep
                    cases ht2 : (s.towersOf q2.Towers)[0]? with
                    | none => (simp only [ht2, Option.bind_eq_bind, Option.some_bind, Option.none_bind, Bool.false_eq_true, if_false] at hstep; exact Option.noConfusion hstep)
                    | some tower2 =>
                      simp only [ht2, Option.some_bind] at hstep
                      by_cases c2 : tower2.HP ≤ 0
                      · simp only [c2, if_true, Option.some.injEq] at hstep
                        subst hstep
                        refine ⟨i, j, p1, p2, rfl, rfl, hi, hj, rfl, rfl, ?_⟩
                        simp only
                        rw [map_eraseProgress_set ps i q1 _ hq1 (eraseProgress_awardWinEXP s q1),
                          hf]
                      · simp only [c2, if_false, Option.some.injEq] at hstep
                        subst hstep
                        exact ⟨i, j, p1, p2, rfl, rfl, hi, hj, hP1, hP2, hf⟩

/-- What `manaAtMostTen` says. -/
theorem manaAtMostTen_iff (w : World) :
    manaAtMostTen w = true ↔ ∀ p, slot1 w = some p ∨ slot2 w = some p → p.Mana ≤ 10 := by
  unfold manaAtMostTen
  cases h1 : slot1 w <;> cases h2 : slot2 w <;> simp
  constructor
  · rintro ⟨a, b⟩ p (rfl | rfl)
    · exact a
    · exact b
  · intro h
    exact ⟨h _ (Or.inl rfl), h _ (Or.inr rfl)⟩

/-- After a tick that reaches the mana regeneration no player has more than 10 mana. -/
theorem manaAtMostTen_of_regen (w w1 : World) (inp : TickInput)
    (hover : w.game.gameOver = false) (htime : inp.now - w.game.StartTime < gameDuration)
    (hstep : updateGameState w inp = some w1) : manaAtMostTen w1 = true := by
  obtain ⟨i, j, p1, p2, -, -, -, -, e1, e2, hf⟩ := updateGameState_cases w w1 inp hover htime hstep
  rw [manaAtMostTen_iff]
  intro q hq
  rcases hq with hq | hq
  · simp only [slot1, deref, e1, Option.some_bind] at hq
    obtain ⟨a, ha, hae⟩ := eraseProgress_getElem? _ _ hf.symm i q hq
    have := regenerated_le w.players i j i p1 p2 a (Or.inl rfl) ha
    rw [← (fields_of_eraseProgress _ _ hae).2.2.1]
    exact this
  · simp only [slot2, deref, e2, Option.some_bind] at hq
    obtain ⟨a, ha, hae⟩ := eraseProgress_getElem? _ _ hf.symm j q hq
    have := regenerated_le w.players i j j p1 p2 a (Or.inr rfl) ha
    rw [← (fields_of_eraseProgress _ _ hae).2.2.1]
    exact this

/-- A tick that reaches the mana regeneration on a match whose slots point to
different records returns with each player's mana at `min(wrap(previous mana + 1), 10)`. -/
theorem updateGameState_regen (w w1 : World) (inp : TickInput)
    (hover : w.game.gameOver = false) (htime : inp.now - w.game.StartTime < gameDuration)
    (hne : w.game.Player1 ≠ w.game.Player2)
    (hstep : updateGameState w inp = some w1) :
    ∃ p1 p2 q1 q2, slot1 w = some p1 ∧ slot2 w = some p2 ∧
      slot1 w1 = some q1 ∧ slot2 w1 = some q2 ∧
      q1.Mana = min (wrap (p1.Mana + 1)) 10 ∧ q2.Mana = min (wrap (p2.Mana + 1)) 10 := by
  obtain ⟨i, j, p1, p2, hP1, hP2, hi, hj, e1, e2, hf⟩ :=
    updateGameState_cases w w1 inp hover htime hstep
  have hij : i ≠ j := by
    intro e
    apply hne
    rw [hP1, hP2, e]
  have hji : j ≠ i := fun e => hij e.symm
  rw [List.getElem?_set_ne hij] at hj
  have li := lt_length_of_getElem? _ _ _ hi
  have lj := lt_length_of_getElem? _ _ _ hj
  have hi1 : ((w.players.set i (regenerateMana p1)).set j (regenerateMana p2))[i]? =
      some (regenerateMana p1) := by
    rw [List.getElem?_set_ne hji, List.getElem?_set_self li]
  have hj1 : ((w.players.set i (regenerateMana p1)).set j (regenerateMana p2))[j]? =
      some (regenerateMana p2) := by
    rw [List.getElem?_set_self (by rw [List.length_set]; exact lj)]
  obtain ⟨q1, hq1, hq1e⟩ := eraseProgress_getElem? _ _ hf i _ hi1
  obtain ⟨q2, hq2, hq2e⟩ := eraseProgress_getElem? _ _ hf j _ hj1
  refine ⟨p1, p2, q1, q2, ?_, ?_, ?_, ?_, ?_, ?_⟩
  · simp [slot1, deref, hP1, hi]
  · simp [slot2, deref, hP2, hj]
  · simp [slot1, deref, e1, hq1]
  · simp [slot2, deref, e2, hq2]
  · rw [(fields_of_eraseProgress _ _ hq1e).2.2.1]
    simp [regenerateMana, min_eq]
  · rw [(fields_of_eraseProgress _ _ hq2e).2.2.1]
    simp [regenerateMana, min_eq]

/-! ## Ticks do not panic on playable matches -/

/-- What a filled slot says. -/
theorem deref_eq_some (players : List Player) (p : Option Nat) (record : Player)
    (h : deref players p = some record) : ∃ i, p = some i ∧ players[i]? = some record := by
  unfold deref at h
  cases p with
  | none => simp at h
  | some i => exact ⟨i, rfl, by simpa using h⟩

/-- The records the two pointers point to after the two regeneration statements have
the slices they had before. -/
theorem regenerated_reads (players : List Player) (i j : Nat) (p1 p2 : Player)
    (hi : players[i]? = some p1) (hj : players[j]? = some p2) :
    ∃ p a b, (players.set i (regenerateMana p1))[j]? = some p ∧
      ((players.set i (regenerateMana p1)).set j (regenerateMana p))[i]? = some a ∧
      ((players.set i (regenerateMana p1)).set j (regenerateMana p))[j]? = some b ∧
      a.Towers = p1.Towers ∧ a.Troops = p1.Troops ∧ b.Towers = p2.Towers ∧ b.Troops = p2.Troops := by
  have li := lt_length_of_getElem? _ _ _ hi
  have lj := lt_length_of_getElem? _ _ _ hj
  by_cases e : i = j
  · subst e
    rw [hi] at hj
    cases hj
    refine ⟨regenerateMana p1, regenerateMana (regenerateMana p1),
      regenerateMana (regenerateMana p1), ?_, ?_, ?_, rfl, rfl, rfl, rfl⟩
    · rw [List.getElem?_set_self li]
    · rw [List.getElem?_set_self (by rw [List.length_set]; exact li)]
    · rw [List.getElem?_set_self (by rw [List.length_set]; exact li)]
  · have e2 : j ≠ i := fun h => e h.symm
    refine ⟨p2, regenerateMana p1, regenerateMana p2, ?_, ?_, ?_, rfl, rfl, rfl, rfl⟩
    · rw [List.getElem?_set_ne e]; exact hj
    · rw [List.getElem?_set_ne e2, List.getElem?_set_self li]
    · rw [List.getElem?_set_self (by rw [List.length_set]; exact lj)]

/-- A state is playable when its records agree up to EXP and level with records whose
loadouts are not empty. -/
theorem playable_of_reads (w1 : World) (i j : Nat) (q1 q2 : Player) (ps : List Player)
    (hP1 : w1.game.Player1 = some i) (hP2 : w1.game.Player2 = some j)
    (hf : w1.players.map eraseProgress = ps.map eraseProgress)
    (hq1 : ps[i]? = some q1) (hq2 : ps[j]? = some q2)
    (a1 : 0 < (w1.store.towersOf q1.Towers).length) (a2 : 0 < (w1.store.towersOf q2.Towers).length)
    (b1 : 0 < (w1.store.troopsOf q1.Troops).length) (b2 : 0 < (w1.store.troopsOf q2.Troops).length) :
    playable w1 = true := by
  obtain ⟨x1, hx1, ex1⟩ := eraseProgress_getElem? _ _ hf i q1 hq1
  obtain ⟨x2, hx2, ex2⟩ := eraseProgress_getElem? _ _ hf j q2 hq2
  obtain ⟨t1, u1, -⟩ := fields_of_eraseProgress _ _ ex1
  obtain ⟨t2, u2, -⟩ := fields_of_eraseProgress _ _ ex2
  refine (playable_iff w1).2 ⟨x1, x2, ?_, ?_, ?_, ?_, ?_, ?_⟩
  · simp [slot1, deref, hP1, hx1]
  · simp [slot2, deref, hP2, hx2]
  · rw [t1]; exact a1
  · rw [t2]; exact a2
  · rw [u1]; exact b1
  · rw [u2]; exact b2

/-- A tick on a playable match does not panic and returns a playable match, whether
or not the players share records or backing arrays. -/
theorem updateGameState_total (w : World) (inp : TickInput) (h : playable w = true) :
    ∃ w1, updateGameState w inp = some w1 ∧ playable w1 = true := by
  obtain ⟨p1, p2, hp1, hp2, a1, a2, b1, b2⟩ := (playable_iff w).1 h
  by_cases hover : w.game.gameOver = true
  · exact ⟨w, updateGameState_of_gameOver w inp hover, h⟩
  have hover : w.game.gameOver = false := by simpa using hover
  by_cases htime : inp.now - w.game.StartTime ≥ gameDuration
  · refine ⟨_, updateGameState_timeout w inp p1 p2 hover htime hp1 hp2, ?_⟩
    exact (playable_iff _).2 ⟨p1, p2, hp1, hp2, a1, a2, b1, b2⟩
  · obtain ⟨i, hP1, hi⟩ := deref_eq_some _ _ _ hp1
    obtain ⟨j, hP2, hj⟩ := deref_eq_some _ _ _ hp2
    obtain ⟨p, a, b, hjr, ha, hb, aT, aU, bT, bU⟩ := regenerated_reads w.players i j p1 p2 hi hj
    obtain ⟨r, hres, hl, ht⟩ := resolveCombat_total _ w.store i j inp a b ha hb
      (by rw [aU]; exact b1) (by rw [bU]; exact b2)
    have hf := resolveCombat_frame _ _ _ _ _ _ hres
    obtain ⟨ps, s1⟩ := r
    simp only at hf hl ht
    obtain ⟨q1, hq1, eq1⟩ := eraseProgress_getElem? _ _ hf i a ha
    obtain ⟨q2, hq2, eq2⟩ := eraseProgress_getElem? _ _ hf j b hb
    obtain ⟨T1, U1, -⟩ := fields_of_eraseProgress _ _ eq1
    obtain ⟨T2, U2, -⟩ := fields_of_eraseProgress _ _ eq2
    have A1 : 0 < (s1.towersOf q1.Towers).length := by rw [hl, T1, aT]; exact a1
    have A2 : 0 < (s1.towersOf q2.Towers).length := by rw [hl, T2, bT]; exact a2
    have B1 : 0 < (s1.troopsOf q1.Troops).length := by rw [ht, U1, aU]; exact b1
    have B2 : 0 < (s1.troopsOf q2.Troops).length := by rw [ht, U2, bU]; exact b2
    obtain ⟨tower1, e1⟩ := getElem?_zero_of_length_pos _ A1
    obtain ⟨tower2, e2⟩ := getElem?_zero_of_length_pos _ A2
    simp only [updateGameState, hover, htime, hP1, hi, hP2, hjr, hres, hq1, hq2, e1, e2,
      Option.bind_eq_bind, Option.some_bind, Bool.false_eq_true, if_false]
    by_cases c1 : tower1.HP ≤ 0
    · simp only [c1, if_true]
      refine ⟨_, rfl, playable_of_reads _ i j q1 q2 ps rfl rfl
        (map_eraseProgress_set ps j q2 _ hq2 (eraseProgress_awardWinEXP s1 q2)) hq1 hq2 ?_ ?_ ?_ ?_⟩
      · simp only [length_towersOf_awardWinEXP]; exact A1
      · simp only [length_towersOf_awardWinEXP]; exact A2
      · simp only [length_troopsOf_awardWinEXP]; exact B1
      · simp only [length_troopsOf_awardWinEXP]; exact B2
    · simp only [c1, if_false]
      by_cases c2 : tower2.HP ≤ 0
      · simp only [c2, if_true]
        refine ⟨_, rfl, playable_of_reads _ i j q1 q2 ps rfl rfl
          (map_eraseProgress_set ps i q1 _ hq1 (eraseProgress_awardWinEXP s1 q1)) hq1 hq2
          ?_ ?_ ?_ ?_⟩
        · simp only [length_towersOf_awardWinEXP]; exact A1
        · simp only [length_towersOf_awardWinEXP]; exact A2
        · simp only [length_troopsOf_awardWinEXP]; exact B1
        · simp only [length_troopsOf_awardWinEXP]; exact B2
      · simp only [c2, if_false]
        exact ⟨_, rfl, playable_of_reads _ i j q1 q2 ps hP1 hP2 rfl hq1 hq2 A1 A2 B1 B2⟩

/-- A run of ticks on a playable match does not panic. -/
theorem runTicks_total (w : World) (inps : List TickInput) (h : playable w = true) :
    ∃ wn, runTicks w inps = some wn := by
  induction inps generalizing w with
  | nil => exact ⟨w, rfl⟩
  | cons inp rest ih =>
    obtain ⟨w1, e, h1⟩ := updateGameState_total w inp h
    obtain ⟨wn, en⟩ := ih w1 h1
    exact ⟨wn, by simp [runTicks, e, en]⟩

/-- A tick keeps every player's mana at most 10. -/
theorem manaAtMostTen_step (w w1 : World) (inp : TickInput) (hb : manaAtMostTen w = true)
    (hstep : updateGameState w inp = some w1) : manaAtMostTen w1 = true := by
  cases hover : w.game.gameOver with
  | true =>
    rw [updateGameState_of_gameOver w inp hover] at hstep
    cases hstep
    exact hb
  | false =>
    by_cases htime : inp.now - w.game.StartTime ≥ gameDuration
    · rw [updateGameState_timeout_eq w w1 inp hover htime hstep]
      exact hb
    · exact manaAtMostTen_of_regen w w1 inp hover (by omega) hstep

/-- A run of ticks keeps every player's mana at most 10. -/
theorem manaAtMostTen_run (w wn : World) (inps : List TickInput) (hb : manaAtMostTen w = true)
    (hrun : runTicks w inps = some wn) : manaAtMostTen wn = true := by
  induction inps generalizing w with
  | nil => simp [runTicks] at hrun; subst hrun; exact hb
  | cons inp rest ih =>
    simp only [runTicks] at hrun
    cases hstep : updateGameState w inp with
    | none => simp [hstep] at hrun
    | some w1 =>
      simp only [hstep, Option.some_bind] at hrun
      exact ih w1 (manaAtMostTen_step w w1 inp hb hstep) hrun

/-- Claim C6, as stated, fails, in three ways. (1) A player with
`9223372036854775807` mana has `-9223372036854775808` after a tick that regenerates,
because `Mana + 1` wraps around; `min(previous mana + 1, 10)` is 10. (2) In a match
both slots of which point to one player record (the same player logged in on two
connections), the record, at 5 mana, is regenerated twice and has 7 mana after one
tick, not `min(5 + 1, 10) = 6`. (3) In a match whose player starts at 50 mana and
whose first tick finds the match duration elapsed, no tick reaches the regeneration
step, and after two ticks (as after none) the player still has 50 mana, more than 10. -/
theorem mana_regeneration_counterexample :
    ((matchOf (samplePlayer "alice" 0 1 0 9223372036854775807) bob 100).game.gameOver = false ∧
      sampleTick.now -
        (matchOf (samplePlayer "alice" 0 1 0 9223372036854775807) bob 100).game.StartTime
        < gameDuration ∧
      (updateGameState (matchOf (samplePlayer "alice" 0 1 0 9223372036854775807) bob 100)
        sampleTick).map (fun w => (slot1 w).map fun p => p.Mana) =
        some (some (-9223372036854775808)) ∧
      min ((9223372036854775807 : Int) + 1) 10 = 10) ∧
    (selfMatch.game.gameOver = false ∧
      sampleTick.now - selfMatch.game.StartTime < gameDuration ∧
      slot1 selfMatch = some alice ∧ slot2 selfMatch = some alice ∧ alice.Mana = 5 ∧
      (updateGameState selfMatch sampleTick).map (fun w => (slot1 w).map fun p => p.Mana) =
        some (some 7) ∧
      min ((5 : Int) + 1) 10 = 6) ∧
    ((runTicks (matchOf (samplePlayer "alice" 0 1 0 50) bob 100) [finalTick, sampleTick]).map
        (fun w => (slot1 w).map fun p => p.Mana) = some (some 50) ∧
      (runTicks (matchOf (samplePlayer "alice" 0 1 0 50) bob 100) [finalTick, sampleTick]).map
        manaAtMostTen = some false ∧
      (runTicks (matchOf (samplePlayer "alice" 0 1 0 50) bob 100) []).map manaAtMostTen =
        some false) := by
  decide

/-- Claim C6, amended: from every state `w`, whatever the players' mana, (1) a tick
that reaches the regeneration step (the match is not over and not timed out) of a
match whose two slots point to different player records returns with the mana of
each player whose `previous mana + 1` is within the range of `int` (from `minInt` to
`maxInt`) at `min(previous mana + 1, 10)`; (2) after a run of ticks whose first tick
reaches the regeneration step no player has more than 10 mana, whatever the later
ticks do and whether or not the slots point to different records; (3) a run of
ticks from a state in which no player has more than 10 mana ends in such a state;
(4) on a match with both slots filled and a tower and a troop for each player no run
of ticks panics; (5) a tick that does not reach the regeneration step (the match is
over or timed out) leaves all player records and both slots as they are. Such a tick
leaves the match over, so the ticks of a run that reach the regeneration step are
its first ticks, and (2) covers every run in which some tick regenerates mana. -/
theorem mana_regeneration_capped (w : World) (inps : List TickInput) :
    (∀ inp w1, w.game.gameOver = false → inp.now - w.game.StartTime < gameDuration →
      w.game.Player1 ≠ w.game.Player2 → updateGameState w inp = some w1 →
      ∃ p1 p2 q1 q2, slot1 w = some p1 ∧ slot2 w = some p2 ∧
        slot1 w1 = some q1 ∧ slot2 w1 = some q2 ∧
        (minInt ≤ p1.Mana + 1 → p1.Mana + 1 ≤ maxInt → q1.Mana = min (p1.Mana + 1) 10) ∧
        (minInt ≤ p2.Mana + 1 → p2.Mana + 1 ≤ maxInt → q2.Mana = min (p2.Mana + 1) 10)) ∧
    (∀ inp wn, w.game.gameOver = false → inp.now - w.game.StartTime < gameDuration →
      runTicks w (inp :: inps) = some wn → manaAtMostTen wn = true) ∧
    (∀ wn, manaAtMostTen w = true → runTicks w inps = some wn → manaAtMostTen wn = true) ∧
    (playable w = true → ∃ wn, runTicks w inps = some wn) ∧
    (∀ inp w1, w.game.gameOver = true ∨ inp.now - w.game.StartTime ≥ gameDuration →
      updateGameState w inp = some w1 →
      w1.players = w.players ∧ w1.game.Player1 = w.game.Player1 ∧
        w1.game.Player2 = w.game.Player2) := by
  refine ⟨?_, ?_, fun wn hb hrun => manaAtMostTen_run w wn inps hb hrun, runTicks_total w inps, ?_⟩
  · intro inp w1 hover htime hne hstep
    obtain ⟨p1, p2, q1, q2, h1, h2, h3, h4, m1, m2⟩ :=
      updateGameState_regen w w1 inp hover htime hne hstep
    exact ⟨p1, p2, q1, q2, h1, h2, h3, h4,
      fun hlo hhi => by rw [m1, wrap_of_inRange _ hlo hhi],
      fun hlo hhi => by rw [m2, wrap_of_inRange _ hlo hhi]⟩
  · intro inp wn hover htime hrun
    simp only [runTicks] at hrun
    cases hstep : updateGameState w inp with
    | none => simp [hstep] at hrun
    | some w1 =>
      simp only [hstep, Option.some_bind] at hrun
      exact manaAtMostTen_run w1 wn inps (manaAtMostTen_of_regen w w1 inp hover htime hstep) hrun
  · intro inp w1 hskip hstep
    cases hover : w.game.gameOver with
    | true =>
      rw [updateGameState_of_gameOver w inp hover] at hstep
      cases hstep
      exact ⟨rfl, rfl, rfl⟩
    | false =>
      rcases hskip with h | h
      · rw [hover] at h; cases h
      · rw [updateGameState_timeout_eq w w1 inp hover h hstep]
        exact ⟨rfl, rfl, rfl⟩

/-- The amended claim C6 at the sample match with `alice` starting at 50 mana: a run
of three ticks returns a state in which no player has more than 10 mana. -/
theorem mana_regeneration_capped_witness :
    ∃ wn, runTicks (matchOf (samplePlayer "alice" 0 1 0 50) bob 100)
        [sampleTick, sampleTick, sampleTick] = some wn ∧ manaAtMostTen wn = true := by
  obtain ⟨wn, hrun⟩ := (mana_regeneration_capped (matchOf (samplePlayer "alice" 0 1 0 50) bob 100)
    [sampleTick, sampleTick, sampleTick]).2.2.2.1 (by decide)
  exact ⟨wn, hrun, (mana_regeneration_capped (matchOf (samplePlayer "alice" 0 1 0 50) bob 100)
    [sampleTick, sampleTick]).2.1 sampleTick wn rfl (by decide) hrun⟩

/-! ## The deploy command: properties -/

/-- A string without a space is a single piece. -/
theorem splitSpace_of_no_space (cs : List Char) (h : ' ' ∉ cs) : splitSpace cs = [cs] := by
  induction cs with
  | nil => rfl
  | cons c cs ih =>
    have hc : c ≠ ' ' := fun e => h (by simp [e])
    have hcs : ' ' ∉ cs := fun e => h (List.mem_cons_of_mem _ e)
    simp [splitSpace, hc, ih hcs]

/-- The pieces of `deploy <name>` for a name without a space. -/
theorem splitSpace_deploy (name : String) (h : ' ' ∉ name.data) :
    (splitSpace ("deploy " ++ name).data).map String.mk = ["deploy", name] := by
  have hd : ("deploy " ++ name).data = 'd' :: 'e' :: 'p' :: 'l' :: 'o' :: 'y' :: ' ' :: name.data := by
    rw [String.data_append]; rfl
  rw [hd]
  simp [splitSpace, splitSpace_of_no_space name.data h]

/-- The lookup finds the first troop of the loadout with the name. -/
theorem findTroop_first (before after : List Troop) (troop : Troop) (name : String)
    (htroop : troop.Name = name) (hfirst : ∀ t ∈ before, t.Name ≠ name) :
    findTroop (before ++ troop :: after) name = some troop := by
  unfold findTroop
  induction before with
  | nil => simp [List.find?, htroop]
  | cons t rest ih =>
    have ht : t.Name ≠ name := hfirst t (List.mem_cons_self _ _)
    have hrest := ih fun x hx => hfirst x (List.mem_cons_of_mem _ hx)
    simp only [List.cons_append, List.find?]
    have : (t.Name == name) = false := by simpa using ht
    rw [this]
    exact hrest

/-- Claim C8, as stated, fails, in two ways. (1) A player with 5 mana whose loadout
holds two troops named `Knight`, the first of cost 1 and the second of cost 9, sends
`deploy Knight`: the command names a troop of the loadout whose cost is greater than
the player's mana, yet the lookup stops at the first troop, the player's mana
decreases to 4 and no not-enough-mana notice is written. (2) A player with 5 mana
whose loadout holds the troop `Mini Pekka` of cost 9 sends `deploy Mini Pekka`: the
command is split at its spaces, the troop `Mini` is looked up, and the reply is the
troop-not-found notice, not the not-enough-mana notice. -/
theorem handleCommand_deploy_counterexample :
    (sampleTroop "Knight" 30 9 ∈
        ({ towers := [], troops := [[sampleTroop "Knight" 30 1, sampleTroop "Knight" 30 9]] } :
          Store).troopsOf (samplePlayer "alice" 0 1 0 5).Troops ∧
      (sampleTroop "Knight" 30 9).Name = "Knight" ∧
      (sampleTroop "Knight" 30 9).MANA > (samplePlayer "alice" 0 1 0 5).Mana ∧
      handleCommand { towers := [], troops := [[sampleTroop "Knight" 30 1, sampleTroop "Knight" 30 9]] }
        (samplePlayer "alice" 0 1 0 5) 1 "deploy Knight" =
        (samplePlayer "alice" 0 1 0 4,
          [Event.received "alice" "deploy Knight", Event.deploying "Knight" "alice"])) ∧
    (sampleTroop "Mini Pekka" 30 9 ∈
        ({ towers := [], troops := [[sampleTroop "Mini Pekka" 30 9]] } : Store).troopsOf
          (samplePlayer "alice" 0 1 0 5).Troops ∧
      (sampleTroop "Mini Pekka" 30 9).Name = "Mini Pekka" ∧
      (sampleTroop "Mini Pekka" 30 9).MANA > (samplePlayer "alice" 0 1 0 5).Mana ∧
      handleCommand { towers := [], troops := [[sampleTroop "Mini Pekka" 30 9]] }
        (samplePlayer "alice" 0 1 0 5) 1 "deploy Mini Pekka" =
        (samplePlayer "alice" 0 1 0 5,
          [Event.received "alice" "deploy Mini Pekka", Event.troopNotFound 1 "Mini"])) := by
  decide

/-- Claim C8, amended: for the command `deploy <name>`, `<name>` a word (no space)
that names a troop of the player's loadout, let `troop` be the first troop of the
loadout with that name (`before` are the troops in front of it, none of which has the
name): when the `MANA` cost of `troop` is greater than the player's mana the player
record is unchanged and the only line written on a connection is the not-enough-mana
notice, on the connection the command came from; when the mana is at least the cost
and `mana - cost ≤ maxInt` (the subtraction does not wrap around) the record changes
in its mana only, which decreases by the cost. -/
theorem handleCommand_deploy (s : Store) (player : Player) (conn : Nat) (name : String)
    (troop : Troop) (before after : List Troop) (hname : ' ' ∉ name.data)
    (hload : s.troopsOf player.Troops = before ++ troop :: after)
    (htroop : troop.Name = name) (hfirst : ∀ t ∈ before, t.Name ≠ name) :
    (troop.MANA > player.Mana →
      handleCommand s player conn ("deploy " ++ name) =
        (player, [Event.received player.Username ("deploy " ++ name), Event.notEnoughMana conn name])) ∧
    (player.Mana ≥ troop.MANA → player.Mana - troop.MANA ≤ maxInt →
      handleCommand s player conn ("deploy " ++ name) =
        ({ player with Mana := player.Mana - troop.MANA },
          [Event.received player.Username ("deploy " ++ name),
            Event.deploying name player.Username])) := by
  have hfind : findTroop (s.troopsOf player.Troops) name = some troop := by
    rw [hload]
    exact findTroop_first before after troop name htroop hfirst
  constructor
  · intro h
    have h2 : ¬ player.Mana ≥ troop.MANA := by omega
    simp only [handleCommand, splitSpace_deploy name hname, hfind]
    simp [h2]
  · intro h hsub
    have e : wrap (player.Mana - troop.MANA) = player.Mana - troop.MANA :=
      wrap_of_inRange _ (by unfold minInt; omega) hsub
    simp only [handleCommand, splitSpace_deploy name hname, hfind, e]
    simp [h]

/-- The amended claim C8 at `alice` with 2 mana and the command `deploy Pawn`, a troop
that costs 3 mana: her record is unchanged and she gets the not-enough-mana notice. -/
theorem handleCommand_deploy_witness :
    handleCommand (sampleStore 100) (samplePlayer "alice" 0 1 0 2) 1 ("deploy " ++ "Pawn") =
      (samplePlayer "alice" 0 1 0 2,
        [Event.received "alice" ("deploy " ++ "Pawn"), Event.notEnoughMana 1 "Pawn"]) :=
  (handleCommand_deploy (sampleStore 100) (samplePlayer "alice" 0 1 0 2) 1 "Pawn"
    (sampleTroop "Pawn" 30 3) [] [] (by decide) rfl rfl (by simp)).1 (by decide)

/-! ## Matchmaking: properties -/

/-- The function `initializeGame` panics when its second player is `nil`. -/
theorem initializeGame_nil (players : List Player) (activeGames : ActiveGames)
    (player1 : Option Nat) (now : Int) :
    initializeGame players activeGames player1 none now = none := by
  unfold initializeGame
  cases deref players player1 <;> rfl

/-- The first loop finds nothing when every match has its second slot filled. -/
theorem joinWaiting_of_full (players : List Player) (activeGames : ActiveGames) (player : Nat)
    (now : Int) (h : ∀ e ∈ activeGames, e.2.Player2.isSome = true) :
    joinWaiting players activeGames player now = some none := by
  induction activeGames with
  | nil => rfl
  | cons e rest ih =>
    obtain ⟨k, game⟩ := e
    have hg := h (k, game) (List.mem_cons_self _ _)
    have hrest := ih fun e he => h e (List.mem_cons_of_mem _ he)
    cases hp : game.Player2 with
    | none => simp [hp] at hg
    | some p2 => simp [joinWaiting, hp, hrest]

/-- The second loop finds nothing when every match has its second slot filled. -/
theorem connectWaiting_of_full (activeGames : ActiveGames) (player : Nat)
    (h : ∀ e ∈ activeGames, e.2.Player2.isSome = true) :
    connectWaiting activeGames player = none := by
  induction activeGames with
  | nil => rfl
  | cons e rest ih =>
    obtain ⟨k, game⟩ := e
    have hg := h (k, game) (List.mem_cons_self _ _)
    have hrest := ih fun e he => h e (List.mem_cons_of_mem _ he)
    cases hp : game.Player2 with
    | none => simp [hp] at hg
    | some p2 => simp [connectWaiting, hp, hrest]

/-- Claim C9 fails on the code: when no match of the registry has an empty second
slot, the matchmaking step calls `initializeGame(player, nil)`, which reads
`player2.Username` of the `nil` player and panics; no match is registered or
returned. This holds for every list of player records and every pointer `player`. -/
theorem autoMatch_panics_without_waiting_match (players : List Player)
    (activeGames : ActiveGames) (player : Nat) (conn : Nat) (now : Int)
    (h : ∀ e ∈ activeGames, e.2.Player2.isSome = true) :
    initializeGame players activeGames (some player) none now = none ∧
    autoMatch players activeGames player conn now = none := by
  refine ⟨initializeGame_nil _ _ _ _, ?_⟩
  simp only [autoMatch, joinWaiting_of_full players activeGames player now h,
    connectWaiting_of_full activeGames player h, initializeGame_nil]
  split_ifs <;> rfl

/-- Claim C9 at `alice` and an empty registry: the matchmaking step panics. -/
theorem autoMatch_panics_without_waiting_match_witness :
    initializeGame [alice] [] (some 0) none 0 = none ∧ autoMatch [alice] [] 0 1 0 = none :=
  autoMatch_panics_without_waiting_match [alice] [] 0 1 0 (by simp)

end ClashRoyale
